import Mathlib

/-! Verification of the work orchestrator's durable job queue and lifecycle
staging layer.

The definitions below are a shallow embedding of the Rust sources:
`src/id.rs` (identifier service), `src/db/mod.rs` (store operations) and
`src/daemon/jobs.rs` (worker pool).  Modelling conventions:

* Each SQL table is a list of row structures; `SELECT ... LIMIT 1` is
  `List.find?`, `UPDATE ... WHERE c` is a `List.map` that rewrites the rows
  matching `c`, and the rows-affected count is `List.countP`.
* RFC-3339 UTC timestamp strings all come from one process clock and compare
  (as strings) exactly like the instants they denote, so timestamps are
  modelled as `Nat`; the `now` of a transaction is passed as a parameter
  (the source reads the clock once per transaction, modulo sub-millisecond
  drift between two adjacent clock reads inside `claim_pending_jobs`).
* `new_id()` calls are modelled by passing the generated id as a parameter;
  freshness of generated ids is a stated hypothesis where it matters.
* A fallible operation returns `Except DbError`; returning an error models
  the transaction rolling back (or a single UPDATE matching zero rows), so
  the store is unchanged on the error path.
* The dedupe-key strings built with `format!` in the source (for example
  `"prepare_environment:env:{env_id}"`) are pairwise distinct across shapes,
  so they are modelled by the injective inductive type `DedupeKey`.
* `i64` counters that are only ever 0-initialised and incremented
  (`attempt`) and second counts are modelled as `Nat`.
-/

namespace Work

/-- Values of the `jobs.status` column. -/
inductive JobStatus where
  | pending
  | running
  | complete
  | failed
deriving DecidableEq, Repr

/-- Values of the `jobs.type` column. -/
inductive JobType where
  | prepare_environment
  | update_environment
  | claim_environment
  | remove_environment
  | remove_task
  | run_task
deriving DecidableEq, Repr

/-- Values of the `environments.status` column. -/
inductive EnvStatus where
  | preparing
  | pool
  | in_use
  | removing
  | failed
deriving DecidableEq, Repr

/-- Values of the `tasks.status` column. -/
inductive TaskStatus where
  | pending
  | started
  | complete
  | failed
deriving DecidableEq, Repr

/-- The dedupe-key strings built in `src/db/mod.rs`, one constructor per
format string (the formats are pairwise non-overlapping, so the string
equality tests of the source coincide with equality of this type). -/
inductive DedupeKey where
  | prepare_env (env_id : String)
  | update_env (env_id : String)
  | claim_env (env_id : String)
  | claim_env_task (task_id : String)
  | remove_env (env_id : String)
  | remove_task_key (task_id : String)
  | run_task_key (task_id : String)
deriving DecidableEq, Repr

/-- The JSON job payloads built in the source; every payload is an object
with some of the keys `env_id`, `task_id` and `claim_after_prepare`, read
back with `payload["..."].as_str() / as_bool()`. -/
structure Payload where
  env_id : Option String := none
  task_id : Option String := none
  claim_after_prepare : Option Bool := none
deriving DecidableEq, Repr

/-- A row of the `jobs` table (all columns). -/
structure JobRow where
  id : String
  job_type : JobType
  payload : Payload
  status : JobStatus
  attempt : Nat
  created_at : Nat
  updated_at : Nat
  dedupe_key : Option DedupeKey
  not_before : Option Nat
  lease_expires_at : Option Nat
  last_error : Option String
deriving DecidableEq, Repr

/-- A row of the `projects` table. -/
structure ProjectRow where
  id : String
  name : String
  path : String
  created_at : Nat
  updated_at : Nat
deriving DecidableEq, Repr

/-- A row of the `environments` table; `metadata` is the serialized JSON
value (opaque to the queue logic). -/
structure EnvRow where
  id : String
  project_id : String
  provider : String
  status : EnvStatus
  metadata : String
  created_at : Nat
  updated_at : Nat
deriving DecidableEq, Repr

/-- A row of the `tasks` table. -/
structure TaskRow where
  id : String
  environment_id : String
  project_id : String
  provider : String
  description : String
  status : TaskStatus
  created_at : Nat
  updated_at : Nat
deriving DecidableEq, Repr

/-- The whole SQLite database. -/
structure Store where
  projects : List ProjectRow
  environments : List EnvRow
  tasks : List TaskRow
  jobs : List JobRow
deriving DecidableEq, Repr

/-- The store of a freshly initialised database: all tables empty. -/
def initialStore : Store := ⟨[], [], [], []⟩

/-- The error values produced by the store operations (the source returns
`anyhow::Error` strings; the constructors below are the distinct message
shapes, which `routes.rs` classifies by substring). -/
inductive DbError where
  | notFound (what : String)
  | duplicate (what : String)
  | invalidState (msg : String)
  | attachedToTask (env_id task_id : String)
  | alreadyRemoving (env_id : String)
  | providerFailed (msg : String)
  | missingPayloadField (field : String)
deriving DecidableEq, Repr

/-- `status IN ('pending', 'running')`: the job is active. -/
def JobRow.active (j : JobRow) : Prop :=
  j.status = JobStatus.pending ∨ j.status = JobStatus.running

instance (j : JobRow) : Decidable j.active := by
  unfold JobRow.active
  infer_instance

/-- `status IN ('complete', 'failed')`: the job is terminal. -/
def JobRow.terminal (j : JobRow) : Prop :=
  j.status = JobStatus.complete ∨ j.status = JobStatus.failed

instance (j : JobRow) : Decidable j.terminal := by
  unfold JobRow.terminal
  infer_instance

/-! Embedding of `src/id.rs`. -/

/-- The base62 alphabet `BASE62_CHARS` of `src/id.rs`. -/
def BASE62_CHARS : List Char :=
  "0123456789ABCDEFGHIJKLMNOPQRSTUVWXYZabcdefghijklmnopqrstuvwxyz".toList

/-- `BASE62_CHARS[d]`; total (out-of-range indices, which never occur, give
the digit `'0'`). -/
def base62digit (d : Nat) : Char := BASE62_CHARS.getD d '0'

/-- The big-endian base62 digit values produced by the loop of `new_id`:
the loop walks the 22-byte buffer from the last position to the first,
writing `n % 62` and dividing `n` by 62, so position `k-1` holds `n % 62`
and positions `0..k-1` hold the digits of `n / 62`. -/
def encodeDigits : Nat → Nat → List Nat
  | 0, _ => []
  | k + 1, n => encodeDigits k (n / 62) ++ [n % 62]

/-- `new_id` as a function of the generating UUID's 128-bit unsigned value
`n = uuid.as_u128()`. -/
def new_id_from (n : Nat) : String :=
  String.mk ((encodeDigits 22 n).map base62digit)

/-- Modelled from the spec: the "left-zero-padded big-endian base62
encoding" of a number, written independently of `new_id`'s loop: take the
base-62 digits of `n` (`Nat.digits`, little-endian), reverse them into
big-endian order, pad on the left with the zero digit to length 22, and map
through the base62 alphabet. -/
def base62_padded_spec (n : Nat) : String :=
  String.mk
    (((List.replicate (22 - (Nat.digits 62 n).length) 0
        ++ (Nat.digits 62 n).reverse).map base62digit))

/-! Embedding of the write operations of `src/db/mod.rs`.  Each operation
takes its clock reading (`now`) and any generated ids as parameters and
returns `Except DbError (result × new store)`. -/

/-- `insert_job_tx` (`db/mod.rs:20-74`), restricted to the jobs table it
touches.  With a dedupe key: if an active job with the same key exists its
id is returned and nothing is inserted; otherwise the key is first cleared
from terminal rows and a fresh `pending` row (attempt 0, no schedule, no
lease, no error) is appended.  The `UNIQUE constraint failed` recovery
branch of the source is unreachable in this single-writer model, because
after the two steps above no row carries the key. -/
def insert_job_tx (job_type : JobType) (payload : Payload)
    (dedupe_key : Option DedupeKey) (new_id : String) (now : Nat)
    (jobs : List JobRow) : String × List JobRow :=
  let fresh : JobRow :=
    { id := new_id, job_type := job_type, payload := payload
      status := JobStatus.pending, attempt := 0
      created_at := now, updated_at := now
      dedupe_key := dedupe_key, not_before := none
      lease_expires_at := none, last_error := none }
  match dedupe_key with
  | none => (new_id, jobs ++ [fresh])
  | some k =>
    match jobs.find? (fun j => decide (j.dedupe_key = some k ∧ j.active)) with
    | some existing => (existing.id, jobs)
    | none =>
      let cleared := jobs.map fun j =>
        if j.dedupe_key = some k ∧ j.terminal then { j with dedupe_key := none } else j
      (new_id, cleared ++ [fresh])

/-- The eligibility condition of the claim query (`db/mod.rs:756-764`):
`(status = 'pending' AND (not_before IS NULL OR not_before <= now)) OR
(status = 'running' AND lease_expires_at IS NOT NULL AND lease_expires_at <= now)`. -/
def eligibleAt (now : Nat) (j : JobRow) : Bool :=
  (j.status = JobStatus.pending &&
    (match j.not_before with
     | none => true
     | some t => t ≤ now)) ||
  (j.status = JobStatus.running &&
    (match j.lease_expires_at with
     | none => false
     | some t => t ≤ now))

/-- The per-row UPDATE applied to every claimed job (`db/mod.rs:770-778`):
`status = 'running', attempt = attempt + 1, not_before = NULL,
lease_expires_at = ?, last_error = NULL, updated_at = now`. -/
def claimedUpdate (now lease_expires_at : Nat) (j : JobRow) : JobRow :=
  { j with status := JobStatus.running, attempt := j.attempt + 1
           not_before := none, lease_expires_at := some lease_expires_at
           last_error := none, updated_at := now }

/-- `ORDER BY created_at ASC`. -/
def createdLE (a b : JobRow) : Prop := a.created_at ≤ b.created_at

instance : DecidableRel createdLE := fun a b => Nat.decLe a.created_at b.created_at

instance : IsTotal JobRow createdLE := ⟨fun x y => Nat.le_total x.created_at y.created_at⟩

instance : IsTrans JobRow createdLE := ⟨fun _ _ _ => Nat.le_trans⟩

/-- `claim_pending_jobs` (`db/mod.rs:743-782`) on the jobs table: select up
to `limit` eligible rows in ascending `created_at` order, update each
selected row in the same transaction, and return the updated rows.  The
source reads the clock twice (once for `now`, once for the lease); the two
reads are the same transaction instant here. -/
def claim_pending_jobs (limit : Nat) (lease_seconds : Nat) (now : Nat)
    (jobs : List JobRow) : List JobRow × List JobRow :=
  if limit = 0 then ([], jobs)
  else
    let lease := now + lease_seconds
    let selected := (List.insertionSort createdLE (jobs.filter (eligibleAt now))).take limit
    let ret := selected.map (claimedUpdate now lease)
    let jobs' := jobs.map fun j =>
      if selected.any (fun s => s.id = j.id) then claimedUpdate now lease j else j
    (ret, jobs')

/-- `mark_job_complete` (`db/mod.rs:784-795`). -/
def mark_job_complete (id : String) (now : Nat) (jobs : List JobRow) :
    Except DbError (List JobRow) :=
  if jobs.any (fun j => j.id = id) then
    Except.ok (jobs.map fun j =>
      if j.id = id then
        { j with status := JobStatus.complete, dedupe_key := none
                 not_before := none, lease_expires_at := none
                 last_error := none, updated_at := now }
      else j)
  else Except.error (DbError.notFound ("job " ++ id))

/-- `mark_job_failed` (`db/mod.rs:797-808`). -/
def mark_job_failed (id : String) (error : String) (now : Nat)
    (jobs : List JobRow) : Except DbError (List JobRow) :=
  if jobs.any (fun j => j.id = id) then
    Except.ok (jobs.map fun j =>
      if j.id = id then
        { j with status := JobStatus.failed, dedupe_key := none
                 not_before := none, lease_expires_at := none
                 last_error := some error, updated_at := now }
      else j)
  else Except.error (DbError.notFound ("job " ++ id))

/-- `requeue_job` (`db/mod.rs:810-822`): back to `pending` with
`not_before = now + delay_seconds`. -/
def requeue_job (id : String) (error : String) (delay_seconds : Nat)
    (now : Nat) (jobs : List JobRow) : Except DbError (List JobRow) :=
  if jobs.any (fun j => j.id = id) then
    Except.ok (jobs.map fun j =>
      if j.id = id then
        { j with status := JobStatus.pending
                 not_before := some (now + delay_seconds)
                 lease_expires_at := none, last_error := some error
                 updated_at := now }
      else j)
  else Except.error (DbError.notFound ("job " ++ id))

/-- `refresh_job_lease` (`db/mod.rs:824-833`): extend the lease of a row
that is still `running`; returns whether a row was updated. -/
def refresh_job_lease (id : String) (lease_seconds : Nat) (now : Nat)
    (jobs : List JobRow) : Bool × List JobRow :=
  (jobs.any (fun j => j.id = id ∧ j.status = JobStatus.running),
   jobs.map fun j =>
     if j.id = id ∧ j.status = JobStatus.running then
       { j with lease_expires_at := some (now + lease_seconds), updated_at := now }
     else j)

/-- `create_job_with_dedupe` (`db/mod.rs:721-731`): a one-insert
transaction around `insert_job_tx` (the trailing `get_job` re-read is
dropped; it cannot fail after a successful insert). -/
def create_job_with_dedupe (job_type : JobType) (payload : Payload)
    (dedupe_key : Option DedupeKey) (new_id : String) (now : Nat)
    (s : Store) : String × Store :=
  let r := insert_job_tx job_type payload dedupe_key new_id now s.jobs
  (r.1, { s with jobs := r.2 })

/-- `create_project` (`db/mod.rs:130-139`); the unique index on the name
makes a duplicate name fail. -/
def create_project (id name path : String) (now : Nat) (s : Store) :
    Except DbError Store :=
  if s.projects.any (fun p => p.name = name) then
    Except.error (DbError.duplicate ("project " ++ name))
  else
    Except.ok { s with projects := s.projects ++
      [{ id := id, name := name, path := path, created_at := now, updated_at := now }] }

/-- `delete_project` (`db/mod.rs:118-128`). -/
def delete_project (name : String) (s : Store) : Except DbError Store :=
  if s.projects.any (fun p => p.name = name) then
    Except.ok { s with projects := s.projects.filter (fun p => ¬ p.name = name) }
  else Except.error (DbError.notFound ("project " ++ name))

/-- The single UPDATE of `complete_preparing_environment`
(`db/mod.rs:197-200`): `SET status = ?, metadata = ?, updated_at = ?
WHERE id = ? AND status = 'preparing'`, as a row transformer. -/
def completePreparingRowUpdate (id : String) (status : EnvStatus)
    (metadata : String) (now : Nat) (e : EnvRow) : EnvRow :=
  if e.id = id ∧ e.status = EnvStatus.preparing then
    { e with status := status, metadata := metadata, updated_at := now }
  else e

/-- `complete_preparing_environment` (`db/mod.rs:185-205`): reject a target
status other than `pool`/`in_use`, then atomically write status + metadata
on the row that is still `preparing`; fail if no row matched. -/
def complete_preparing_environment (id : String) (status : EnvStatus)
    (metadata : String) (now : Nat) (s : Store) : Except DbError Store :=
  if ¬ (status = EnvStatus.pool ∨ status = EnvStatus.in_use) then
    Except.error (DbError.invalidState ("invalid completion status for preparing environment"))
  else
    let envs' := s.environments.map (completePreparingRowUpdate id status metadata now)
    if s.environments.any (fun e => e.id = id ∧ e.status = EnvStatus.preparing) then
      Except.ok { s with environments := envs' }
    else Except.error (DbError.invalidState ("environment " ++ id ++ " is not in preparing status"))

/-- `update_environment_metadata` (`db/mod.rs:228-243`). -/
def update_environment_metadata (id : String) (metadata : String) (now : Nat)
    (s : Store) : Except DbError Store :=
  if s.environments.any (fun e => e.id = id) then
    Except.ok { s with environments := s.environments.map fun e =>
      if e.id = id then { e with metadata := metadata, updated_at := now } else e }
  else Except.error (DbError.notFound ("environment " ++ id))

/-- `update_environment_status` (`db/mod.rs:245-256`). -/
def update_environment_status (id : String) (status : EnvStatus) (now : Nat)
    (s : Store) : Except DbError Store :=
  if s.environments.any (fun e => e.id = id) then
    Except.ok { s with environments := s.environments.map fun e =>
      if e.id = id then { e with status := status, updated_at := now } else e }
  else Except.error (DbError.notFound ("environment " ++ id))

/-- `claim_environment_tx` (`db/mod.rs:258-268`): `pool → in_use` on one
row, failing when no row is in the pool with that id. -/
def claim_environment_tx (id : String) (now : Nat) (envs : List EnvRow) :
    Except DbError (List EnvRow) :=
  if envs.any (fun e => e.id = id ∧ e.status = EnvStatus.pool) then
    Except.ok (envs.map fun e =>
      if e.id = id ∧ e.status = EnvStatus.pool then
        { e with status := EnvStatus.in_use, updated_at := now }
      else e)
  else Except.error (DbError.invalidState ("environment " ++ id ++ " is not in the pool"))

/-- `delete_environment` (`db/mod.rs:270-280`). -/
def delete_environment (id : String) (s : Store) : Except DbError Store :=
  if s.environments.any (fun e => e.id = id) then
    Except.ok { s with environments := s.environments.filter (fun e => ¬ e.id = id) }
  else Except.error (DbError.notFound ("environment " ++ id))

/-- `stage_prepare_environment` (`db/mod.rs:307-342`). -/
def stage_prepare_environment (project_id provider : String)
    (claim_after_prepare : Bool) (env_new_id job_new_id : String) (now : Nat)
    (s : Store) : Except DbError (String × Store) :=
  if s.projects.any (fun p => p.id = project_id) then
    let env : EnvRow :=
      { id := env_new_id, project_id := project_id, provider := provider
        status := EnvStatus.preparing, metadata := "{}"
        created_at := now, updated_at := now }
    let payload : Payload :=
      { env_id := some env_new_id, claim_after_prepare := some claim_after_prepare }
    let r := insert_job_tx JobType.prepare_environment payload
      (some (DedupeKey.prepare_env env_new_id)) job_new_id now s.jobs
    Except.ok (env_new_id,
      { s with environments := s.environments ++ [env], jobs := r.2 })
  else Except.error (DbError.notFound ("project " ++ project_id))

/-- `stage_task_create` (`db/mod.rs:344-427`): claim the oldest matching
pool environment if one exists (and its conditional UPDATE flips exactly
one row), otherwise insert a fresh `preparing` environment; insert the task
against that environment; enqueue `claim_environment` for a reused
environment, `prepare_environment` for a new one. -/
def stage_task_create (project_id task_provider env_provider description : String)
    (task_new_id env_new_id job_new_id : String) (now : Nat) (s : Store) :
    Except DbError (TaskRow × Store) :=
  if s.projects.any (fun p => p.id = project_id) then
    let candidate := (List.insertionSort (fun a b : EnvRow => a.created_at ≤ b.created_at)
      (s.environments.filter fun e =>
        e.provider = env_provider ∧ e.project_id = project_id ∧
          e.status = EnvStatus.pool)).head?
    let newEnv : EnvRow :=
      { id := env_new_id, project_id := project_id, provider := env_provider
        status := EnvStatus.preparing, metadata := "{}"
        created_at := now, updated_at := now }
    let step : Bool × String × List EnvRow :=
      match candidate with
      | some cand =>
        let claimed := s.environments.countP
          (fun e => e.id = cand.id ∧ e.status = EnvStatus.pool)
        let envs_upd := s.environments.map fun e =>
          if e.id = cand.id ∧ e.status = EnvStatus.pool then
            { e with status := EnvStatus.in_use, updated_at := now }
          else e
        if claimed = 1 then (false, cand.id, envs_upd)
        else (true, env_new_id, envs_upd ++ [newEnv])
      | none => (true, env_new_id, s.environments ++ [newEnv])
    let created_new_environment := step.1
    let env_id := step.2.1
    let task : TaskRow :=
      { id := task_new_id, environment_id := env_id, project_id := project_id
        provider := task_provider, description := description
        status := TaskStatus.pending, created_at := now, updated_at := now }
    let payload : Payload := { task_id := some task_new_id, env_id := some env_id }
    let jobs' :=
      if created_new_environment then
        (insert_job_tx JobType.prepare_environment payload
          (some (DedupeKey.prepare_env env_id)) job_new_id now s.jobs).2
      else
        (insert_job_tx JobType.claim_environment payload
          (some (DedupeKey.claim_env_task task_new_id)) job_new_id now s.jobs).2
    Except.ok (task,
      { s with environments := step.2.2, tasks := s.tasks ++ [task], jobs := jobs' })
  else Except.error (DbError.notFound ("project " ++ project_id))

/-- `stage_update_environment` (`db/mod.rs:429-452`). -/
def stage_update_environment (id : String) (job_new_id : String) (now : Nat)
    (s : Store) : Except DbError Store :=
  match s.environments.find? (fun e => e.id = id) with
  | none => Except.error (DbError.notFound ("environment " ++ id))
  | some env =>
    if env.status = EnvStatus.pool then
      let r := insert_job_tx JobType.update_environment { env_id := some id }
        (some (DedupeKey.update_env id)) job_new_id now s.jobs
      Except.ok { s with jobs := r.2 }
    else Except.error (DbError.invalidState ("environment " ++ id ++ " is not in the pool"))

/-- `stage_claim_environment` (`db/mod.rs:454-466`). -/
def stage_claim_environment (id : String) (job_new_id : String) (now : Nat)
    (s : Store) : Except DbError Store :=
  match claim_environment_tx id now s.environments with
  | Except.error e => Except.error e
  | Except.ok envs' =>
    let r := insert_job_tx JobType.claim_environment { env_id := some id }
      (some (DedupeKey.claim_env id)) job_new_id now s.jobs
    Except.ok { s with environments := envs', jobs := r.2 }

/-- `stage_claim_next_environment` (`db/mod.rs:468-490`). -/
def stage_claim_next_environment (provider project_id : String)
    (job_new_id : String) (now : Nat) (s : Store) : Except DbError Store :=
  match (List.insertionSort (fun a b : EnvRow => a.created_at ≤ b.created_at)
      (s.environments.filter fun e =>
        e.provider = provider ∧ e.project_id = project_id ∧
          e.status = EnvStatus.pool)).head? with
  | none => Except.error (DbError.notFound ("no available environment"))
  | some cand =>
    match claim_environment_tx cand.id now s.environments with
    | Except.error e => Except.error e
    | Except.ok envs' =>
      let r := insert_job_tx JobType.claim_environment { env_id := some cand.id }
        (some (DedupeKey.claim_env cand.id)) job_new_id now s.jobs
      Except.ok { s with environments := envs', jobs := r.2 }

/-- `stage_remove_environment` (`db/mod.rs:492-532`): refuse when a task
still references the environment, require that it exists and is not
already `removing`, then flip it to `removing` and enqueue
`remove_environment` in the same transaction. -/
def stage_remove_environment (id : String) (job_new_id : String) (now : Nat)
    (s : Store) : Except DbError Store :=
  match s.tasks.find? (fun t => t.environment_id = id) with
  | some t => Except.error (DbError.attachedToTask id t.id)
  | none =>
    match s.environments.find? (fun e => e.id = id) with
    | none => Except.error (DbError.notFound ("environment " ++ id))
    | some env =>
      if env.status = EnvStatus.removing then
        Except.error (DbError.alreadyRemoving id)
      else
        let envs' := s.environments.map fun e =>
          if e.id = id then { e with status := EnvStatus.removing, updated_at := now } else e
        let r := insert_job_tx JobType.remove_environment { env_id := some id }
          (some (DedupeKey.remove_env id)) job_new_id now s.jobs
        Except.ok { s with environments := envs', jobs := r.2 }

/-- `force_delete_environment` (`db/mod.rs:534-559`). -/
def force_delete_environment (id : String) (s : Store) : Except DbError Store :=
  match s.tasks.find? (fun t => t.environment_id = id) with
  | some t => Except.error (DbError.attachedToTask id t.id)
  | none =>
    if s.environments.any (fun e => e.id = id) then
      Except.ok { s with environments := s.environments.filter (fun e => ¬ e.id = id) }
    else Except.error (DbError.notFound ("environment " ++ id))

/-- `stage_remove_task` (`db/mod.rs:561-600`): look up the task's paired
environment, set it to `removing` unless it already is, and enqueue
`remove_task` in the same transaction. -/
def stage_remove_task (task_id : String) (job_new_id : String) (now : Nat)
    (s : Store) : Except DbError Store :=
  match s.tasks.find? (fun t => t.id = task_id) with
  | none => Except.error (DbError.notFound ("task " ++ task_id))
  | some task =>
    match s.environments.find? (fun e => e.id = task.environment_id) with
    | none => Except.error (DbError.notFound ("environment " ++ task.environment_id))
    | some env =>
      let envs' :=
        if env.status = EnvStatus.removing then s.environments
        else s.environments.map fun e =>
          if e.id = task.environment_id then
            { e with status := EnvStatus.removing, updated_at := now }
          else e
      let payload : Payload :=
        { task_id := some task_id, env_id := some task.environment_id }
      let r := insert_job_tx JobType.remove_task payload
        (some (DedupeKey.remove_task_key task_id)) job_new_id now s.jobs
      Except.ok { s with environments := envs', jobs := r.2 }

/-- `force_delete_task` (`db/mod.rs:602-628`). -/
def force_delete_task (task_id : String) (s : Store) : Except DbError Store :=
  match s.tasks.find? (fun t => t.id = task_id) with
  | none => Except.error (DbError.notFound ("task " ++ task_id))
  | some task =>
    let tasks' := s.tasks.filter (fun t => ¬ t.id = task_id)
    if s.environments.any (fun e => e.id = task.environment_id) then
      Except.ok { s with
        tasks := tasks',
        environments := s.environments.filter (fun e => ¬ e.id = task.environment_id) }
    else Except.error (DbError.notFound ("environment " ++ task.environment_id))

/-- `start_task` (`db/mod.rs:630-642`). -/
def start_task (id : String) (now : Nat) (s : Store) : Except DbError Store :=
  if s.tasks.any (fun t => t.id = id) then
    Except.ok { s with tasks := s.tasks.map fun t =>
      if t.id = id then { t with status := TaskStatus.started, updated_at := now } else t }
  else Except.error (DbError.notFound ("task " ++ id))

/-- `delete_task_and_environment` (`db/mod.rs:665-678`): one transaction,
no affected-row checks. -/
def delete_task_and_environment (task_id env_id : String) (s : Store) : Store :=
  { s with tasks := s.tasks.filter (fun t => ¬ t.id = task_id),
           environments := s.environments.filter (fun e => ¬ e.id = env_id) }

/-- `update_task_status` (`db/mod.rs:680-692`). -/
def update_task_status (id : String) (status : TaskStatus) (now : Nat)
    (s : Store) : Except DbError Store :=
  if s.tasks.any (fun t => t.id = id) then
    Except.ok { s with tasks := s.tasks.map fun t =>
      if t.id = id then { t with status := status, updated_at := now } else t }
  else Except.error (DbError.notFound ("task " ++ id))

/-! Embedding of the worker pool, `src/daemon/jobs.rs`.  Provider handlers
run external programs; they are modelled as oracles passed in as functions,
and the handlers additionally report which provider operations they invoked
(the trace) so that "the provider was not called" is expressible.
Lifecycle-log appends and event-bus notifications touch no store state and
are dropped.  -/

/-- `RETRY_LIMIT` (`daemon/jobs.rs:13`). -/
def RETRY_LIMIT : Nat := 2

/-- `retry_delay_seconds` (`daemon/jobs.rs:101-104`):
`min(2^(clamp(attempt, 1, 5)), 60)`. -/
def retry_delay_seconds (attempt : Nat) : Nat :=
  min (2 ^ (min (max attempt 1) 5)) 60

/-- Provider operations relevant to the environment lifecycle handlers. -/
inductive ProviderCall where
  | prepare
  | update
  | claim
  | remove
deriving DecidableEq, Repr

/-- A provider handler as seen by the worker: each operation either fails
with a message or returns the new metadata (`remove` returns nothing). -/
structure ProviderOps where
  prepare : ProjectRow → String → Except String String
  update : String → Except String String
  claim : String → Except String String
  remove : String → Except String Unit

/-- `apply_terminal_failure_side_effects` (`daemon/jobs.rs:235-278`):
executed only when a job moves to `failed`.  Every branch ignores the
result of the status updates (`let _ = ...`), which this helper captures. -/
def tryUpdateEnvStatus (id : Option String) (status : EnvStatus) (now : Nat)
    (s : Store) : Store :=
  match id with
  | none => s
  | some id =>
    match update_environment_status id status now s with
    | Except.ok s' => s'
    | Except.error _ => s

/-- The task half of the ignored terminal status updates. -/
def tryUpdateTaskStatus (id : Option String) (status : TaskStatus) (now : Nat)
    (s : Store) : Store :=
  match id with
  | none => s
  | some id =>
    match update_task_status id status now s with
    | Except.ok s' => s'
    | Except.error _ => s

/-- `apply_terminal_failure_side_effects` (`daemon/jobs.rs:235-278`). -/
def apply_terminal_failure_side_effects (job : JobRow) (now : Nat) (s : Store) :
    Store :=
  match job.job_type with
  | JobType.prepare_environment =>
    tryUpdateTaskStatus job.payload.task_id TaskStatus.failed now
      (tryUpdateEnvStatus job.payload.env_id EnvStatus.failed now s)
  | JobType.run_task =>
    tryUpdateEnvStatus job.payload.env_id EnvStatus.failed now
      (tryUpdateTaskStatus job.payload.task_id TaskStatus.failed now s)
  | JobType.claim_environment =>
    tryUpdateTaskStatus job.payload.task_id TaskStatus.failed now
      (tryUpdateEnvStatus job.payload.env_id EnvStatus.failed now s)
  | JobType.update_environment =>
    tryUpdateEnvStatus job.payload.env_id EnvStatus.failed now s
  | JobType.remove_environment =>
    tryUpdateEnvStatus job.payload.env_id EnvStatus.failed now s
  | JobType.remove_task =>
    tryUpdateEnvStatus job.payload.env_id EnvStatus.failed now s

/-- The failure branch of `process_job` (`daemon/jobs.rs:179-231`):
requeue with backoff while the claimed attempt counter is below
`RETRY_LIMIT`, otherwise mark failed and apply the terminal side effects.
A failing requeue falls back to the terminal path; a failing `mark_failed`
is ignored but the side effects still run. -/
def process_job_failure (job : JobRow) (error_message : String) (now : Nat)
    (s : Store) : Store :=
  let terminal : Store → Store := fun st =>
    let jobs' :=
      match mark_job_failed job.id error_message now st.jobs with
      | Except.ok l => l
      | Except.error _ => st.jobs
    apply_terminal_failure_side_effects job now { st with jobs := jobs' }
  if job.attempt < RETRY_LIMIT then
    match requeue_job job.id error_message (retry_delay_seconds job.attempt) now s.jobs with
    | Except.ok jobs' => { s with jobs := jobs' }
    | Except.error _ => terminal s
  else terminal s

/-- The success branch of `process_job` (`daemon/jobs.rs:164-178`); a
failing `mark_complete` is only logged. -/
def process_job_success (job : JobRow) (now : Nat) (s : Store) : Store :=
  match mark_job_complete job.id now s.jobs with
  | Except.ok jobs' => { s with jobs := jobs' }
  | Except.error _ => s

/-- One iteration of the worker loop (`daemon/jobs.rs:68-98`) in the
degenerate deterministic schedule used for the retry analysis: all eight
permits are free, a batch is claimed, and every claimed job's execution
fails with `error_message` (the always-failing provider).  Returns how many
jobs were executed this round together with the new store. -/
def worker_round_all_fail (error_message : String) (lease_seconds now : Nat)
    (s : Store) : Nat × Store :=
  let r := claim_pending_jobs 8 lease_seconds now s.jobs
  (r.1.length,
   r.1.foldl (fun acc j => process_job_failure j error_message now acc)
     { s with jobs := r.2 })

/-- The `prepare_environment` handler (`daemon/jobs.rs:280-361`).  Returns
the new store together with the trace of provider operations invoked.
`run_task_new_id` models the id generated for the follow-up `run_task` job
when one is enqueued. -/
def prepare_environment_handler (p : ProviderOps) (job : JobRow)
    (run_task_new_id : String) (now : Nat) (s : Store) :
    Except DbError (Store × List ProviderCall) :=
  match job.payload.env_id with
  | none => Except.error (DbError.missingPayloadField "env_id")
  | some env_id =>
    let task_id := job.payload.task_id
    let claim_after_prepare := job.payload.claim_after_prepare.getD false
    match s.environments.find? (fun e => e.id = env_id) with
    | none => Except.error (DbError.notFound ("environment " ++ env_id))
    | some env =>
      if env.status = EnvStatus.pool ∨ env.status = EnvStatus.in_use then
        match task_id with
        | some tid =>
          let r := create_job_with_dedupe JobType.run_task
            { task_id := some tid, env_id := some env_id }
            (some (DedupeKey.run_task_key tid)) run_task_new_id now s
          Except.ok (r.2, [])
        | none => Except.ok (s, [])
      else if ¬ env.status = EnvStatus.preparing then
        Except.error (DbError.invalidState
          ("environment " ++ env_id ++ " has unexpected status while preparing"))
      else
        match s.projects.find? (fun pr => pr.id = env.project_id) with
        | none => Except.error (DbError.notFound ("project " ++ env.project_id))
        | some project =>
          match p.prepare project env_id with
          | Except.error e => Except.error (DbError.providerFailed e)
          | Except.ok prepared_metadata =>
            let should_claim := claim_after_prepare ∨ task_id.isSome
            let afterClaim : Except DbError (String × List ProviderCall) :=
              if should_claim then
                match p.claim prepared_metadata with
                | Except.error e => Except.error (DbError.providerFailed e)
                | Except.ok m => Except.ok (m, [ProviderCall.prepare, ProviderCall.claim])
              else Except.ok (prepared_metadata, [ProviderCall.prepare])
            match afterClaim with
            | Except.error e => Except.error e
            | Except.ok fm =>
              let final_status :=
                if should_claim then EnvStatus.in_use else EnvStatus.pool
              match complete_preparing_environment env_id final_status fm.1 now s with
              | Except.error e => Except.error e
              | Except.ok s' =>
                match task_id with
                | some tid =>
                  let r := create_job_with_dedupe JobType.run_task
                    { task_id := some tid, env_id := some env_id }
                    (some (DedupeKey.run_task_key tid)) run_task_new_id now s'
                  Except.ok (r.2, fm.2)
                | none => Except.ok (s', fm.2)

/-- The outcome of the status guards at the head of the `run_task` handler
(`daemon/jobs.rs:497-520`). -/
inductive RunTaskOutcome where
  | absorbed
  | proceeded
deriving DecidableEq, Repr

/-- The head of the `run_task` handler (`daemon/jobs.rs:497-521`), up to
and including `db::start_task`: a terminal task is absorbed (success, no
writes), a `started` task is an error, and otherwise the handler requires
the environment to be `in_use` and flips the task to `started` before
asking the provider for a run specification.  Configuration loading,
the provider call and the subprocess that follow are outside the store
and are not modelled. -/
def run_task_guard (job : JobRow) (now : Nat) (s : Store) :
    Except DbError (RunTaskOutcome × Store) :=
  match job.payload.task_id with
  | none => Except.error (DbError.missingPayloadField "task_id")
  | some task_id =>
    match job.payload.env_id with
    | none => Except.error (DbError.missingPayloadField "env_id")
    | some env_id =>
      match s.tasks.find? (fun t => t.id = task_id) with
      | none => Except.error (DbError.notFound ("task " ++ task_id))
      | some task =>
        if task.status = TaskStatus.complete ∨ task.status = TaskStatus.failed then
          Except.ok (RunTaskOutcome.absorbed, s)
        else if task.status = TaskStatus.started then
          Except.error (DbError.invalidState ("task " ++ task_id ++ " is already started"))
        else
          match s.environments.find? (fun e => e.id = env_id) with
          | none => Except.error (DbError.notFound ("environment " ++ env_id))
          | some env =>
            if ¬ env.status = EnvStatus.in_use then
              Except.error (DbError.invalidState ("environment " ++ env_id ++ " is not in use"))
            else
              match start_task task_id now s with
              | Except.error e => Except.error e
              | Except.ok s' => Except.ok (RunTaskOutcome.proceeded, s')

/-! The transition system of the store: one step per write operation of
`src/db/mod.rs`.  `new_id()` never repeats within a database's life, so
every constructor that inserts a job carries the corresponding freshness
hypothesis for the generated job id. -/

/-- Fresh ids: no job row already uses the id. -/
def FreshJobId (id : String) (s : Store) : Prop :=
  ∀ j ∈ s.jobs, j.id ≠ id

/-- One write transaction against the store. -/
inductive Step : Store → Store → Prop where
  | create_project (id name path : String) (now : Nat) {s s' : Store} :
      create_project id name path now s = Except.ok s' → Step s s'
  | delete_project (name : String) {s s' : Store} :
      delete_project name s = Except.ok s' → Step s s'
  | complete_preparing_environment (id : String) (status : EnvStatus)
      (metadata : String) (now : Nat) {s s' : Store} :
      complete_preparing_environment id status metadata now s = Except.ok s' → Step s s'
  | update_environment_metadata (id metadata : String) (now : Nat) {s s' : Store} :
      update_environment_metadata id metadata now s = Except.ok s' → Step s s'
  | update_environment_status (id : String) (status : EnvStatus) (now : Nat)
      {s s' : Store} :
      update_environment_status id status now s = Except.ok s' → Step s s'
  | delete_environment (id : String) {s s' : Store} :
      delete_environment id s = Except.ok s' → Step s s'
  | stage_prepare_environment (project_id provider : String) (cap : Bool)
      (env_new_id job_new_id : String) (now : Nat) {s : Store} (r : String × Store) :
      FreshJobId job_new_id s →
      stage_prepare_environment project_id provider cap env_new_id job_new_id now s
        = Except.ok r → Step s r.2
  | stage_task_create (project_id task_provider env_provider description : String)
      (task_new_id env_new_id job_new_id : String) (now : Nat) {s : Store}
      (r : TaskRow × Store) :
      FreshJobId job_new_id s →
      stage_task_create project_id task_provider env_provider description
        task_new_id env_new_id job_new_id now s = Except.ok r → Step s r.2
  | stage_update_environment (id job_new_id : String) (now : Nat) {s s' : Store} :
      FreshJobId job_new_id s →
      stage_update_environment id job_new_id now s = Except.ok s' → Step s s'
  | stage_claim_environment (id job_new_id : String) (now : Nat) {s s' : Store} :
      FreshJobId job_new_id s →
      stage_claim_environment id job_new_id now s = Except.ok s' → Step s s'
  | stage_claim_next_environment (provider project_id job_new_id : String)
      (now : Nat) {s s' : Store} :
      FreshJobId job_new_id s →
      stage_claim_next_environment provider project_id job_new_id now s
        = Except.ok s' → Step s s'
  | stage_remove_environment (id job_new_id : String) (now : Nat) {s s' : Store} :
      FreshJobId job_new_id s →
      stage_remove_environment id job_new_id now s = Except.ok s' → Step s s'
  | force_delete_environment (id : String) {s s' : Store} :
      force_delete_environment id s = Except.ok s' → Step s s'
  | stage_remove_task (task_id job_new_id : String) (now : Nat) {s s' : Store} :
      FreshJobId job_new_id s →
      stage_remove_task task_id job_new_id now s = Except.ok s' → Step s s'
  | force_delete_task (task_id : String) {s s' : Store} :
      force_delete_task task_id s = Except.ok s' → Step s s'
  | start_task (id : String) (now : Nat) {s s' : Store} :
      start_task id now s = Except.ok s' → Step s s'
  | delete_task_and_environment (task_id env_id : String) {s : Store} :
      Step s (delete_task_and_environment task_id env_id s)
  | update_task_status (id : String) (status : TaskStatus) (now : Nat) {s s' : Store} :
      update_task_status id status now s = Except.ok s' → Step s s'
  | create_job_with_dedupe (job_type : JobType) (payload : Payload)
      (dedupe_key : Option DedupeKey) (new_id : String) (now : Nat) {s : Store} :
      FreshJobId new_id s →
      Step s (create_job_with_dedupe job_type payload dedupe_key new_id now s).2
  | claim_pending_jobs (limit lease_seconds now : Nat) {s : Store} :
      Step s { s with jobs := (claim_pending_jobs limit lease_seconds now s.jobs).2 }
  | mark_job_complete (id : String) (now : Nat) {s : Store} (jobs' : List JobRow) :
      mark_job_complete id now s.jobs = Except.ok jobs' → Step s { s with jobs := jobs' }
  | mark_job_failed (id error : String) (now : Nat) {s : Store} (jobs' : List JobRow) :
      mark_job_failed id error now s.jobs = Except.ok jobs' → Step s { s with jobs := jobs' }
  | requeue_job (id error : String) (delay_seconds now : Nat) {s : Store}
      (jobs' : List JobRow) :
      requeue_job id error delay_seconds now s.jobs = Except.ok jobs' →
      Step s { s with jobs := jobs' }
  | refresh_job_lease (id : String) (lease_seconds now : Nat) {s : Store} :
      Step s { s with jobs := (refresh_job_lease id lease_seconds now s.jobs).2 }
  | reset {s : Store} : Step s initialStore

/-- A store state reachable from a fresh database by write transactions. -/
inductive Reachable : Store → Prop where
  | init : Reachable initialStore
  | step {s s' : Store} : Reachable s → Step s s' → Reachable s'

/-- Invariant on the jobs table maintained by every transaction: job ids
are pairwise distinct, terminal rows carry no dedupe key, and at most one
active row exists per dedupe key. -/
def JobsInv (jobs : List JobRow) : Prop :=
  (jobs.map JobRow.id).Nodup ∧
  (∀ j ∈ jobs, j.terminal → j.dedupe_key = none) ∧
  (∀ k : DedupeKey,
    jobs.countP (fun j => decide (j.dedupe_key = some k ∧ j.active)) ≤ 1)

/-- The dedupe uniqueness property alone: at any instant, for every
`dedupe_key`, at most one job row with status in `{pending, running}`
carries that key. -/
def DedupeUnique (jobs : List JobRow) : Prop :=
  ∀ k : DedupeKey,
    jobs.countP (fun j => decide (j.dedupe_key = some k ∧ j.active)) ≤ 1

/-! Theorems.  Helper lemmas come first, then one theorem per claim
(with its witness or counterexample). -/

theorem encodeDigits_length (k : Nat) : ∀ n, (encodeDigits k n).length = k := by
  induction k with
  | zero => intro n; rfl
  | succ k ih => intro n; simp [encodeDigits, ih]

theorem encodeDigits_lt62 (k : Nat) : ∀ n, ∀ d ∈ encodeDigits k n, d < 62 := by
  induction k with
  | zero => intro n d hd; simp [encodeDigits] at hd
  | succ k ih =>
    intro n d hd
    simp only [encodeDigits, List.mem_append, List.mem_singleton] at hd
    rcases hd with hd | hd
    · exact ih (n / 62) d hd
    · subst hd; exact Nat.mod_lt _ (by norm_num)

theorem encodeDigits_eq_pad (k : Nat) : ∀ n, n < 62 ^ k →
    encodeDigits k n
      = List.replicate (k - (Nat.digits 62 n).length) 0 ++ (Nat.digits 62 n).reverse := by
  induction k with
  | zero =>
    intro n h
    have hn : n = 0 := by simpa using h
    subst hn
    simp [encodeDigits]
  | succ k ih =>
    intro n h
    have hdiv : n / 62 < 62 ^ k := by
      have h62 : (0:Nat) < 62 := by norm_num
      refine (Nat.div_lt_iff_lt_mul h62).mpr ?_
      calc n < 62 ^ (k + 1) := h
        _ = 62 ^ k * 62 := by rw [pow_succ]
    rcases Nat.eq_zero_or_pos n with h0 | hpos
    · subst h0
      have ih0 := ih 0 (by positivity)
      simp only [Nat.digits_zero, List.length_nil, Nat.sub_zero, List.reverse_nil,
        List.append_nil] at ih0 ⊢
      rw [show encodeDigits (k + 1) 0 = encodeDigits k (0 / 62) ++ [0 % 62] from rfl,
        Nat.zero_div, ih0]
      simp [List.replicate_succ']
    · have hdig : Nat.digits 62 n = n % 62 :: Nat.digits 62 (n / 62) :=
        Nat.digits_def' (by norm_num) hpos
      rw [show encodeDigits (k + 1) n = encodeDigits k (n / 62) ++ [n % 62] from rfl,
        ih (n / 62) hdiv, hdig]
      simp only [List.reverse_cons, List.length_cons]
      rw [Nat.succ_sub_succ, List.append_assoc]

theorem lex_append_right {α : Type} (r : α → α → Prop) :
    ∀ (a : List α) (x y : α), r x y → List.Lex r (a ++ [x]) (a ++ [y])
  | [], _, _, h => List.Lex.rel h
  | _ :: a, x, y, h => List.Lex.cons (lex_append_right r a x y h)

theorem lex_append_congr {α : Type} {r : α → α → Prop} {a b : List α}
    (h : List.Lex r a b) (hlen : a.length = b.length) (c d : List α) :
    List.Lex r (a ++ c) (b ++ d) := by
  induction h generalizing c d with
  | nil => simp at hlen
  | cons h ih =>
    exact List.Lex.cons (ih (by simpa using hlen) c d)
  | rel hab => exact List.Lex.rel hab

theorem encodeDigits_lex (k : Nat) : ∀ m n, m < n → n < 62 ^ k →
    List.Lex (fun a b => a < b) (encodeDigits k m) (encodeDigits k n) := by
  induction k with
  | zero =>
    intro m n hmn hn
    exact absurd hn (by simp; omega)
  | succ k ih =>
    intro m n hmn hn
    have hdiv : n / 62 < 62 ^ k := by
      refine (Nat.div_lt_iff_lt_mul (by norm_num)).mpr ?_
      calc n < 62 ^ (k + 1) := hn
        _ = 62 ^ k * 62 := by rw [pow_succ]
    have hq : m / 62 ≤ n / 62 := Nat.div_le_div_right hmn.le
    rcases Nat.lt_or_ge (m / 62) (n / 62) with hlt | hge
    · exact lex_append_congr (ih (m / 62) (n / 62) hlt hdiv)
        (by rw [encodeDigits_length, encodeDigits_length]) [m % 62] [n % 62]
    · have hqeq : m / 62 = n / 62 := le_antisymm hq hge
      have hr : m % 62 < n % 62 := by
        have h1 := Nat.div_add_mod m 62
        have h2 := Nat.div_add_mod n 62
        omega
      show List.Lex _ (encodeDigits k (m / 62) ++ [m % 62])
        (encodeDigits k (n / 62) ++ [n % 62])
      rw [hqeq]
      exact lex_append_right _ _ _ _ hr

theorem string_mk_toList (l : List Char) : (String.mk l).toList = l := rfl

theorem string_mk_length (l : List Char) : (String.mk l).length = l.length := rfl

theorem base62digit_strictMono :
    ∀ i < 62, ∀ j < 62, i < j → base62digit i < base62digit j := by decide

theorem base62digit_mem : ∀ d < 62, base62digit d ∈ BASE62_CHARS := by decide

theorem lex_map_base62 {ds es : List Nat} (h : List.Lex (fun a b => a < b) ds es)
    (hds : ∀ d ∈ ds, d < 62) (hes : ∀ e ∈ es, e < 62) :
    List.Lex (fun a b : Char => a < b) (ds.map base62digit) (es.map base62digit) := by
  induction h with
  | nil =>
    simp only [List.map_nil, List.map_cons]
    exact List.Lex.nil
  | cons h ih =>
    simp only [List.map_cons]
    exact List.Lex.cons (ih (fun d hd => hds d (List.mem_cons_of_mem _ hd))
      (fun e he => hes e (List.mem_cons_of_mem _ he)))
  | rel hab =>
    simp only [List.map_cons]
    exact List.Lex.rel (base62digit_strictMono _ (hds _ (List.mem_cons_self _ _))
      _ (hes _ (List.mem_cons_self _ _)) hab)

/-- C9: every string returned by `new_id()` has length exactly 22 and
consists only of base62 characters, and equals the left-zero-padded
big-endian base62 encoding of the generating UUID's 128-bit unsigned value;
the encoding is strictly order-preserving, so an id produced from a larger
128-bit value is lexicographically greater. -/
theorem new_id_spec (m n : Nat) (hm : m < 2 ^ 128) (hn : n < 2 ^ 128) :
    (new_id_from n).length = 22 ∧
    (∀ c ∈ (new_id_from n).toList, c ∈ BASE62_CHARS) ∧
    new_id_from n = base62_padded_spec n ∧
    (m < n → new_id_from m < new_id_from n) := by
  have hpow : (2:Nat) ^ 128 ≤ 62 ^ 22 := by norm_num
  refine ⟨?_, ?_, ?_, ?_⟩
  · simp only [new_id_from, string_mk_length, List.length_map, encodeDigits_length]
  · intro c hc
    simp only [new_id_from, string_mk_toList] at hc
    rcases List.mem_map.mp hc with ⟨d, hd, rfl⟩
    exact base62digit_mem d (encodeDigits_lt62 22 n d hd)
  · simp only [new_id_from, base62_padded_spec]
    rw [encodeDigits_eq_pad 22 n (lt_of_lt_of_le hn hpow)]
  · intro hmn
    have hlex := encodeDigits_lex 22 m n hmn (lt_of_lt_of_le hn hpow)
    have hmap := lex_map_base62 hlex (encodeDigits_lt62 22 m) (encodeDigits_lt62 22 n)
    rw [String.lt_iff_toList_lt]
    simp only [new_id_from, string_mk_toList]
    exact hmap

/-- C9 witness: evaluating the theorem at the 128-bit values 3 and 5. -/
theorem new_id_spec_witness :
    (new_id_from 5).length = 22 ∧ new_id_from 3 < new_id_from 5 :=
  ⟨(new_id_spec 3 5 (by norm_num) (by norm_num)).1,
   (new_id_spec 3 5 (by norm_num) (by norm_num)).2.2.2 (by norm_num)⟩

/-- C7: `complete_preparing_environment(id, status, metadata)` fails when
`status` is neither `pool` nor `in_use`; it fails (rather than no-opping)
when no environment row with this id is currently `preparing` (including
when the row does not exist), and in that case the UPDATE it issues leaves
every environment row unchanged; and on success the status and metadata
(and `updated_at`) are written together by the single row update, leaving
all other rows and tables untouched. -/
theorem complete_preparing_environment_spec (eid : String) (status : EnvStatus)
    (metadata : String) (now : Nat) (s : Store) :
    (¬ (status = EnvStatus.pool ∨ status = EnvStatus.in_use) →
      complete_preparing_environment eid status metadata now s
        = Except.error (DbError.invalidState
            "invalid completion status for preparing environment")) ∧
    ((status = EnvStatus.pool ∨ status = EnvStatus.in_use) →
      (∀ e ∈ s.environments, e.id = eid → e.status ≠ EnvStatus.preparing) →
      complete_preparing_environment eid status metadata now s
        = Except.error (DbError.invalidState
            ("environment " ++ eid ++ " is not in preparing status")) ∧
      s.environments.map (completePreparingRowUpdate eid status metadata now)
        = s.environments) ∧
    ((status = EnvStatus.pool ∨ status = EnvStatus.in_use) →
      ∀ e ∈ s.environments, e.id = eid → e.status = EnvStatus.preparing →
      ∃ s', complete_preparing_environment eid status metadata now s = Except.ok s' ∧
        { e with status := status, metadata := metadata, updated_at := now }
          ∈ s'.environments ∧
        (∀ e' ∈ s.environments, ¬ (e'.id = eid ∧ e'.status = EnvStatus.preparing) →
          e' ∈ s'.environments) ∧
        s'.projects = s.projects ∧ s'.tasks = s.tasks ∧ s'.jobs = s.jobs) := by
  refine ⟨?_, ?_, ?_⟩
  · intro hbad
    simp only [complete_preparing_environment, if_pos hbad]
  · intro hok hnone
    have hc : ¬ ((s.environments.any
        (fun e => e.id = eid ∧ e.status = EnvStatus.preparing)) = true) := by
      simp only [List.any_eq_true, decide_eq_true_eq, not_exists, not_and]
      intro e he hid
      exact hnone e he hid
    constructor
    · simp only [complete_preparing_environment, if_neg (not_not_intro hok), if_neg hc]
    · have h1 : ∀ e ∈ s.environments,
          completePreparingRowUpdate eid status metadata now e = e := by
        intro e he
        have hne : ¬ (e.id = eid ∧ e.status = EnvStatus.preparing) := by
          rintro ⟨hx, hy⟩
          exact hnone e he hx hy
        simp [completePreparingRowUpdate, hne]
      rw [List.map_congr_left h1, List.map_id']
  · intro hok e he hid hprep
    have hc : (s.environments.any
        (fun e => e.id = eid ∧ e.status = EnvStatus.preparing)) = true := by
      simp only [List.any_eq_true, decide_eq_true_eq]
      exact ⟨e, he, hid, hprep⟩
    refine ⟨{ s with environments :=
      s.environments.map (completePreparingRowUpdate eid status metadata now) },
      ?_, ?_, ?_, rfl, rfl, rfl⟩
    · simp only [complete_preparing_environment, if_neg (not_not_intro hok), if_pos hc]
    · have hupd : completePreparingRowUpdate eid status metadata now e
          = { e with status := status, metadata := metadata, updated_at := now } := by
        simp [completePreparingRowUpdate, hid, hprep]
      exact hupd ▸ List.mem_map_of_mem _ he
    · intro e' he' hne
      have hupd : completePreparingRowUpdate eid status metadata now e' = e' := by
        simp [completePreparingRowUpdate, hne]
      exact hupd ▸ List.mem_map_of_mem _ he'

/-- C7 witness: a store with one `preparing` environment row; completing it
to `pool` with fresh metadata succeeds and rewrites the row. -/
theorem complete_preparing_environment_spec_witness :
    ∃ s', complete_preparing_environment "e1" EnvStatus.pool "m2" 7
        ⟨[], [{ id := "e1", project_id := "p1", provider := "git", status := EnvStatus.preparing,
                metadata := "{}", created_at := 1, updated_at := 1 }], [], []⟩ = Except.ok s' ∧
      ({ id := "e1", project_id := "p1", provider := "git", status := EnvStatus.pool,
         metadata := "m2", created_at := 1, updated_at := 7 } : EnvRow) ∈ s'.environments :=
  match (complete_preparing_environment_spec "e1" EnvStatus.pool "m2" 7
      ⟨[], [{ id := "e1", project_id := "p1", provider := "git", status := EnvStatus.preparing,
              metadata := "{}", created_at := 1, updated_at := 1 }], [], []⟩).2.2
      (Or.inl rfl)
      { id := "e1", project_id := "p1", provider := "git", status := EnvStatus.preparing,
        metadata := "{}", created_at := 1, updated_at := 1 }
      (by simp) rfl rfl with
  | ⟨s', hok, hmem, _⟩ => ⟨s', hok, hmem⟩

/-- C1: for `claim_pending_jobs(limit, lease_seconds)` with `limit > 0`,
the returned jobs are exactly the up-to-`limit` eligible rows (pending with
`not_before` absent or elapsed, or running with an expired lease), taken in
ascending `created_at` order, and each selected row is rewritten in the
same transaction to `running` with `attempt` incremented by exactly one,
`not_before = NULL`, `lease_expires_at = now + lease_seconds`,
`last_error = NULL` and `updated_at = now`: every returned row is the
updated image of an eligible stored row; the number returned is
`min limit (#eligible)` (so all eligible rows are claimed whenever at most
`limit` are eligible); the returned batch is sorted by `created_at`; an
eligible row can only be left unclaimed if the batch is full and consists
of rows no younger than it; returned rows are in the updated table, rows
whose id was not claimed are unchanged in it, and no row is added or
dropped. -/
theorem claim_pending_jobs_spec (limit lease_seconds now : Nat)
    (jobs ret jobs' : List JobRow) (hlim : 0 < limit)
    (h : claim_pending_jobs limit lease_seconds now jobs = (ret, jobs')) :
    (∀ j' ∈ ret, ∃ j ∈ jobs, eligibleAt now j = true ∧
        j' = claimedUpdate now (now + lease_seconds) j) ∧
    ret.length = min limit (jobs.countP (eligibleAt now)) ∧
    List.Sorted createdLE ret ∧
    (∀ j ∈ jobs, eligibleAt now j = true →
      claimedUpdate now (now + lease_seconds) j ∈ ret ∨
        (ret.length = limit ∧ ∀ j' ∈ ret, j'.created_at ≤ j.created_at)) ∧
    (∀ j' ∈ ret, j' ∈ jobs') ∧
    (∀ j ∈ jobs, (∀ j' ∈ ret, j'.id ≠ j.id) → j ∈ jobs') ∧
    jobs'.length = jobs.length := by
  have hne : ¬ limit = 0 := Nat.pos_iff_ne_zero.mp hlim
  rw [claim_pending_jobs, if_neg hne] at h
  obtain ⟨hret, hjobs⟩ := Prod.mk.injEq _ _ _ _ ▸ h
  subst hret hjobs
  set S := (List.insertionSort createdLE (jobs.filter (eligibleAt now))).take limit with hS
  have hSmem : ∀ x ∈ S, x ∈ jobs ∧ eligibleAt now x = true := by
    intro x hx
    have hx1 : x ∈ List.insertionSort createdLE (jobs.filter (eligibleAt now)) :=
      List.mem_of_mem_take hx
    have hx2 : x ∈ jobs.filter (eligibleAt now) :=
      (List.mem_insertionSort createdLE).mp hx1
    exact ⟨List.mem_of_mem_filter hx2, List.of_mem_filter hx2⟩
  refine ⟨?_, ?_, ?_, ?_, ?_, ?_, ?_⟩
  · intro j' hj'
    obtain ⟨x, hx, rfl⟩ := List.mem_map.mp hj'
    exact ⟨x, (hSmem x hx).1, (hSmem x hx).2, rfl⟩
  · rw [List.length_map, hS, List.length_take, List.length_insertionSort,
      List.countP_eq_length_filter]
  · have hsorted : List.Sorted createdLE
        (List.insertionSort createdLE (jobs.filter (eligibleAt now))) :=
      List.sorted_insertionSort createdLE _
    have hsortedS : List.Sorted createdLE S :=
      hsorted.sublist (List.take_sublist _ _)
    exact List.pairwise_map.mpr (hsortedS.imp (fun hab => hab))
  · intro j hj helig
    have hmemsort : j ∈ List.insertionSort createdLE (jobs.filter (eligibleAt now)) :=
      (List.mem_insertionSort createdLE).mpr (List.mem_filter.mpr ⟨hj, helig⟩)
    rw [← List.take_append_drop limit
      (List.insertionSort createdLE (jobs.filter (eligibleAt now)))] at hmemsort
    rcases List.mem_append.mp hmemsort with hin | hdrop
    · exact Or.inl (List.mem_map_of_mem _ hin)
    · right
      have hdropne : ¬ ((List.insertionSort createdLE
          (jobs.filter (eligibleAt now))).drop limit = []) :=
        List.ne_nil_of_mem hdrop
      have hlen : limit < (List.insertionSort createdLE
          (jobs.filter (eligibleAt now))).length := by
        by_contra hcon
        exact hdropne (List.drop_eq_nil_iff.mpr (by omega))
      constructor
      · rw [List.length_map, hS, List.length_take]
        omega
      · intro j' hj'
        obtain ⟨x, hx, rfl⟩ := List.mem_map.mp hj'
        have hpw := List.sorted_insertionSort createdLE (jobs.filter (eligibleAt now))
        rw [← List.take_append_drop limit
          (List.insertionSort createdLE (jobs.filter (eligibleAt now)))] at hpw
        have := (List.pairwise_append.mp hpw).2.2 x hx j hdrop
        exact this
  · intro j' hj'
    obtain ⟨x, hx, rfl⟩ := List.mem_map.mp hj'
    have hcond : (S.any (fun s => s.id = x.id)) = true := by
      simp only [List.any_eq_true, decide_eq_true_eq]
      exact ⟨x, hx, rfl⟩
    have heval : (fun j => if S.any (fun s => s.id = j.id) then
        claimedUpdate now (now + lease_seconds) j else j) x
        = claimedUpdate now (now + lease_seconds) x := by
      simp only [if_pos hcond]
    exact heval ▸ List.mem_map_of_mem _ (hSmem x hx).1
  · intro j hj hnoid
    have hcond : ¬ ((S.any (fun s => s.id = j.id)) = true) := by
      simp only [List.any_eq_true, decide_eq_true_eq, not_exists, not_and]
      intro x hx hxid
      exact hnoid (claimedUpdate now (now + lease_seconds) x)
        (List.mem_map_of_mem _ hx) hxid
    have heval : (fun j => if S.any (fun s => s.id = j.id) then
        claimedUpdate now (now + lease_seconds) j else j) j = j := by
      simp only [if_neg hcond]
    exact heval ▸ List.mem_map_of_mem _ hj
  · exact List.length_map _ _

/-- C1 witness: a table with an eligible pending job, a running job with an
expired lease, and a complete job; a claim of two at time 100 returns two
rows, sorted by creation time. -/
theorem claim_pending_jobs_spec_witness :
    ((claim_pending_jobs 2 30 100
      [{ id := "j1", job_type := JobType.run_task, payload := {},
         status := JobStatus.pending, attempt := 0, created_at := 5, updated_at := 5,
         dedupe_key := none, not_before := none, lease_expires_at := none,
         last_error := none },
       { id := "j2", job_type := JobType.remove_environment, payload := {},
         status := JobStatus.running, attempt := 1, created_at := 3, updated_at := 40,
         dedupe_key := none, not_before := none, lease_expires_at := some 50,
         last_error := none },
       { id := "j3", job_type := JobType.update_environment, payload := {},
         status := JobStatus.complete, attempt := 1, created_at := 1, updated_at := 2,
         dedupe_key := none, not_before := none, lease_expires_at := none,
         last_error := none }]).1).length
      = min 2 (List.countP (eligibleAt 100)
      [{ id := "j1", job_type := JobType.run_task, payload := {},
         status := JobStatus.pending, attempt := 0, created_at := 5, updated_at := 5,
         dedupe_key := none, not_before := none, lease_expires_at := none,
         last_error := none },
       { id := "j2", job_type := JobType.remove_environment, payload := {},
         status := JobStatus.running, attempt := 1, created_at := 3, updated_at := 40,
         dedupe_key := none, not_before := none, lease_expires_at := some 50,
         last_error := none },
       { id := "j3", job_type := JobType.update_environment, payload := {},
         status := JobStatus.complete, attempt := 1, created_at := 1, updated_at := 2,
         dedupe_key := none, not_before := none, lease_expires_at := none,
         last_error := none }]) :=
  (claim_pending_jobs_spec 2 30 100 _ _ _ (by norm_num) rfl).2.1

theorem countP_map_eq {α : Type} (p : α → Bool) (f : α → α) (l : List α)
    (h : ∀ a ∈ l, p (f a) = p a) : (l.map f).countP p = l.countP p := by
  induction l with
  | nil => rfl
  | cons a t ih =>
    simp only [List.map_cons, List.countP_cons, h a (List.mem_cons_self _ _),
      ih (fun x hx => h x (List.mem_cons_of_mem _ hx))]

theorem countP_map_le {α : Type} (p : α → Bool) (f : α → α) (l : List α)
    (h : ∀ a ∈ l, p (f a) = true → p a = true) :
    (l.map f).countP p ≤ l.countP p := by
  induction l with
  | nil => exact Nat.le_refl _
  | cons a t ih =>
    have ht := ih (fun x hx => h x (List.mem_cons_of_mem _ hx))
    simp only [List.map_cons, List.countP_cons]
    by_cases hfa : p (f a) = true
    · rw [if_pos hfa, if_pos (h a (List.mem_cons_self _ _) hfa)]
      omega
    · rw [if_neg hfa]
      split <;> omega

theorem length_le_one_mem_eq {α : Type} : ∀ {l : List α}, l.length ≤ 1 →
    ∀ x ∈ l, ∀ y ∈ l, x = y
  | [], _, x, hx, _, _ => absurd hx (List.not_mem_nil x)
  | [a], _, x, hx, y, hy => by
      rw [List.mem_singleton] at hx hy
      rw [hx, hy]
  | a :: b :: t, h, _, _, _, _ => by simp at h

theorem map_id_of_preserves_id {f : JobRow → JobRow}
    (hf : ∀ j, (f j).id = j.id) (l : List JobRow) :
    (l.map f).map JobRow.id = l.map JobRow.id := by
  rw [List.map_map]
  exact List.map_congr_left (fun j _ => hf j)

theorem jobsInv_append_fresh (base : List JobRow) (job_type : JobType)
    (payload : Payload) (dk : Option DedupeKey) (new_id : String) (now : Nat)
    (hinv : JobsInv base) (hfresh : ∀ j ∈ base, j.id ≠ new_id)
    (hzero : ∀ k : DedupeKey, dk = some k →
      base.countP (fun j => decide (j.dedupe_key = some k ∧ j.active)) = 0) :
    JobsInv (base ++
      [{ id := new_id, job_type := job_type, payload := payload,
         status := JobStatus.pending, attempt := 0,
         created_at := now, updated_at := now,
         dedupe_key := dk, not_before := none,
         lease_expires_at := none, last_error := none }]) := by
  obtain ⟨hnodup, hterm, huniq⟩ := hinv
  refine ⟨?_, ?_, ?_⟩
  · rw [List.map_append]
    refine List.nodup_append.mpr ⟨hnodup, List.nodup_singleton _, ?_⟩
    intro a ha hb
    obtain ⟨j, hj, rfl⟩ := List.mem_map.mp ha
    simp only [List.map_cons, List.map_nil, List.mem_singleton] at hb
    exact hfresh j hj hb
  · intro j hj hjterm
    rcases List.mem_append.mp hj with hj | hj
    · exact hterm j hj hjterm
    · rw [List.mem_singleton] at hj
      subst hj
      rcases hjterm with hx | hx <;> simp at hx
  · intro k
    rw [List.countP_append]
    by_cases hk : dk = some k
    · subst hk
      rw [hzero k rfl]
      simp [JobRow.active]
    · have hsing : (([{ id := new_id, job_type := job_type, payload := payload,
                        status := JobStatus.pending, attempt := 0,
                        created_at := now, updated_at := now,
                        dedupe_key := dk, not_before := none,
                        lease_expires_at := none, last_error := none }] : List JobRow).countP
          (fun j => decide (j.dedupe_key = some k ∧ j.active))) = 0 := by
        simp [hk]
      rw [hsing]
      simpa using huniq k

theorem jobsInv_insert_job_tx (job_type : JobType) (payload : Payload)
    (dedupe_key : Option DedupeKey) (new_id : String) (now : Nat)
    (jobs : List JobRow) (hfresh : ∀ j ∈ jobs, j.id ≠ new_id)
    (hinv : JobsInv jobs) :
    JobsInv (insert_job_tx job_type payload dedupe_key new_id now jobs).2 := by
  obtain ⟨hnodup, hterm, huniq⟩ := hinv
  match dedupe_key with
  | none =>
    exact jobsInv_append_fresh jobs job_type payload none new_id now
      ⟨hnodup, hterm, huniq⟩ hfresh (by intro k hk; cases hk)
  | some k =>
    cases hfind : jobs.find? (fun j => decide (j.dedupe_key = some k ∧ j.active)) with
    | some x =>
      have heq : (insert_job_tx job_type payload (some k) new_id now jobs).2 = jobs := by
        simp only [insert_job_tx]
        rw [hfind]
      rw [heq]
      exact ⟨hnodup, hterm, huniq⟩
    | none =>
      have hzero : jobs.countP (fun j => decide (j.dedupe_key = some k ∧ j.active)) = 0 := by
        rw [List.countP_eq_zero]
        rw [List.find?_eq_none] at hfind
        exact hfind
      have hclr : ∀ j : JobRow, ((fun j => if j.dedupe_key = some k ∧ j.terminal then
          { j with dedupe_key := none } else j) j).id = j.id := by
        intro j
        by_cases hc : j.dedupe_key = some k ∧ j.terminal <;> simp [hc]
      have hclearedCount : ∀ k' : DedupeKey,
          (jobs.map (fun j => if j.dedupe_key = some k ∧ j.terminal then
            { j with dedupe_key := none } else j)).countP
              (fun j => decide (j.dedupe_key = some k' ∧ j.active))
            = jobs.countP (fun j => decide (j.dedupe_key = some k' ∧ j.active)) := by
        intro k'
        apply countP_map_eq
        intro j _
        by_cases hc : j.dedupe_key = some k ∧ j.terminal
        · have hactive : ¬ j.active := by
            rcases hc.2 with hx | hx <;> simp [JobRow.active, hx]
          simp [hc, hactive]
        · simp [hc]
      have hclearedInv : JobsInv (jobs.map (fun j =>
          if j.dedupe_key = some k ∧ j.terminal then
            { j with dedupe_key := none } else j)) := by
        refine ⟨?_, ?_, ?_⟩
        · rw [map_id_of_preserves_id hclr]
          exact hnodup
        · intro j hj hjterm
          obtain ⟨x, hx, rfl⟩ := List.mem_map.mp hj
          by_cases hc : x.dedupe_key = some k ∧ x.terminal
          · simp [hc]
          · simp only [if_neg hc] at hjterm ⊢
            exact hterm x hx hjterm
        · intro k'
          rw [hclearedCount k']
          exact huniq k'
      have hclearedFresh : ∀ j ∈ jobs.map (fun j =>
          if j.dedupe_key = some k ∧ j.terminal then
            { j with dedupe_key := none } else j), j.id ≠ new_id := by
        intro j hj
        obtain ⟨x, hx, rfl⟩ := List.mem_map.mp hj
        rw [hclr x]
        exact hfresh x hx
      have hres := jobsInv_append_fresh _ job_type payload (some k) new_id now
        hclearedInv hclearedFresh
        (by
          intro k' hk'
          obtain rfl : k = k' := by injection hk'
          rw [hclearedCount k]
          exact hzero)
      have heq : (insert_job_tx job_type payload (some k) new_id now jobs).2
          = jobs.map (fun j => if j.dedupe_key = some k ∧ j.terminal then
              { j with dedupe_key := none } else j) ++
            [{ id := new_id, job_type := job_type, payload := payload,
               status := JobStatus.pending, attempt := 0,
               created_at := now, updated_at := now,
               dedupe_key := some k, not_before := none,
               lease_expires_at := none, last_error := none }] := by
        simp only [insert_job_tx]
        rw [hfind]
      rw [heq]
      exact hres

theorem eligibleAt_active {now : Nat} {j : JobRow} (h : eligibleAt now j = true) :
    j.active := by
  simp only [eligibleAt, Bool.or_eq_true, Bool.and_eq_true, decide_eq_true_eq] at h
  rcases h with ⟨h1, _⟩ | ⟨h1, _⟩
  · exact Or.inl h1
  · exact Or.inr h1

theorem jobsInv_map_le (jobs : List JobRow) (f : JobRow → JobRow)
    (hinv : JobsInv jobs) (hid : ∀ j, (f j).id = j.id)
    (hterm' : ∀ j ∈ jobs, (f j).terminal → (f j).dedupe_key = none)
    (hP : ∀ (k : DedupeKey), ∀ j ∈ jobs,
      decide ((f j).dedupe_key = some k ∧ (f j).active) = true →
      decide (j.dedupe_key = some k ∧ j.active) = true) :
    JobsInv (jobs.map f) := by
  obtain ⟨hnodup, hterm, huniq⟩ := hinv
  refine ⟨?_, ?_, ?_⟩
  · rw [map_id_of_preserves_id hid]
    exact hnodup
  · intro j hj hjterm
    obtain ⟨x, hx, rfl⟩ := List.mem_map.mp hj
    exact hterm' x hx hjterm
  · intro k
    exact le_trans (countP_map_le _ f jobs (hP k)) (huniq k)

theorem jobsInv_claim_pending_jobs (limit lease_seconds now : Nat)
    (jobs : List JobRow) (hinv : JobsInv jobs) :
    JobsInv (claim_pending_jobs limit lease_seconds now jobs).2 := by
  by_cases hl : limit = 0
  · rw [claim_pending_jobs, if_pos hl]
    exact hinv
  · rw [claim_pending_jobs, if_neg hl]
    refine jobsInv_map_le jobs _ hinv ?_ ?_ ?_
    · intro j
      by_cases hc : ((List.insertionSort createdLE
          (jobs.filter (eligibleAt now))).take limit).any (fun s => s.id = j.id) = true
      · simp only [if_pos hc]
        rfl
      · simp only [if_neg hc]
    · intro j hj hjterm
      by_cases hc : ((List.insertionSort createdLE
          (jobs.filter (eligibleAt now))).take limit).any (fun s => s.id = j.id) = true
      · rw [if_pos hc] at hjterm
        rcases hjterm with hx | hx <;> simp [claimedUpdate] at hx
      · rw [if_neg hc] at hjterm ⊢
        exact hinv.2.1 j hj hjterm
    · intro k j hj hp
      by_cases hc : ((List.insertionSort createdLE
          (jobs.filter (eligibleAt now))).take limit).any (fun s => s.id = j.id) = true
      · rw [if_pos hc] at hp
        simp only [claimedUpdate, decide_eq_true_eq] at hp
        obtain ⟨hkey, _⟩ := hp
        have hactive : j.active := by
          simp only [List.any_eq_true, decide_eq_true_eq] at hc
          obtain ⟨s, hs, hsid⟩ := hc
          have hs1 : s ∈ jobs.filter (eligibleAt now) :=
            (List.mem_insertionSort createdLE).mp (List.mem_of_mem_take hs)
          have hs2 : s ∈ jobs := List.mem_of_mem_filter hs1
          have hs3 : eligibleAt now s = true := List.of_mem_filter hs1
          have : s = j := List.inj_on_of_nodup_map hinv.1 hs2 hj hsid
          exact this ▸ eligibleAt_active hs3
        simp only [decide_eq_true_eq]
        exact ⟨hkey, hactive⟩
      · rw [if_neg hc] at hp
        exact hp

theorem jobsInv_mark_job_complete (id : String) (now : Nat)
    (jobs jobs' : List JobRow) (hinv : JobsInv jobs)
    (h : mark_job_complete id now jobs = Except.ok jobs') : JobsInv jobs' := by
  rw [mark_job_complete] at h
  split at h
  · obtain rfl : _ = jobs' := by injection h
    refine jobsInv_map_le jobs _ hinv ?_ ?_ ?_
    · intro j
      by_cases hc : j.id = id <;> simp [hc]
    · intro j hj hjterm
      by_cases hc : j.id = id
      · simp [hc]
      · rw [if_neg hc] at hjterm ⊢
        exact hinv.2.1 j hj hjterm
    · intro k j hj hp
      by_cases hc : j.id = id
      · rw [if_pos hc] at hp
        simp [JobRow.active] at hp
      · rw [if_neg hc] at hp
        exact hp
  · cases h

theorem jobsInv_mark_job_failed (id error : String) (now : Nat)
    (jobs jobs' : List JobRow) (hinv : JobsInv jobs)
    (h : mark_job_failed id error now jobs = Except.ok jobs') : JobsInv jobs' := by
  rw [mark_job_failed] at h
  split at h
  · obtain rfl : _ = jobs' := by injection h
    refine jobsInv_map_le jobs _ hinv ?_ ?_ ?_
    · intro j
      by_cases hc : j.id = id <;> simp [hc]
    · intro j hj hjterm
      by_cases hc : j.id = id
      · simp [hc]
      · rw [if_neg hc] at hjterm ⊢
        exact hinv.2.1 j hj hjterm
    · intro k j hj hp
      by_cases hc : j.id = id
      · rw [if_pos hc] at hp
        simp [JobRow.active] at hp
      · rw [if_neg hc] at hp
        exact hp
  · cases h

theorem jobsInv_requeue_job (id error : String) (delay_seconds now : Nat)
    (jobs jobs' : List JobRow) (hinv : JobsInv jobs)
    (h : requeue_job id error delay_seconds now jobs = Except.ok jobs') :
    JobsInv jobs' := by
  rw [requeue_job] at h
  split at h
  · obtain rfl : _ = jobs' := by injection h
    refine jobsInv_map_le jobs _ hinv ?_ ?_ ?_
    · intro j
      by_cases hc : j.id = id <;> simp [hc]
    · intro j hj hjterm
      by_cases hc : j.id = id
      · rw [if_pos hc] at hjterm
        rcases hjterm with hx | hx <;> simp at hx
      · rw [if_neg hc] at hjterm ⊢
        exact hinv.2.1 j hj hjterm
    · intro k j hj hp
      by_cases hc : j.id = id
      · rw [if_pos hc] at hp
        simp only [decide_eq_true_eq] at hp
        obtain ⟨hkey, _⟩ := hp
        rcases hstat : j.status with hs | hs | hs | hs
        · simp only [decide_eq_true_eq]
          exact ⟨hkey, Or.inl hstat⟩
        · simp only [decide_eq_true_eq]
          exact ⟨hkey, Or.inr hstat⟩
        · have := hinv.2.1 j hj (Or.inl hstat)
          rw [this] at hkey
          cases hkey
        · have := hinv.2.1 j hj (Or.inr hstat)
          rw [this] at hkey
          cases hkey
      · rw [if_neg hc] at hp
        exact hp
  · cases h

theorem jobsInv_refresh_job_lease (id : String) (lease_seconds now : Nat)
    (jobs : List JobRow) (hinv : JobsInv jobs) :
    JobsInv (refresh_job_lease id lease_seconds now jobs).2 := by
  refine jobsInv_map_le jobs _ hinv ?_ ?_ ?_
  · intro j
    by_cases hc : j.id = id ∧ j.status = JobStatus.running <;> simp [hc]
  · intro j hj hjterm
    by_cases hc : j.id = id ∧ j.status = JobStatus.running
    · rw [if_pos hc] at hjterm
      have hx : j.terminal := hjterm
      rcases hx with hx | hx <;> rw [hc.2] at hx <;> cases hx
    · rw [if_neg hc] at hjterm ⊢
      exact hinv.2.1 j hj hjterm
  · intro k j hj hp
    by_cases hc : j.id = id ∧ j.status = JobStatus.running
    · rw [if_pos hc] at hp
      exact hp
    · rw [if_neg hc] at hp
      exact hp

theorem jobsInv_step {s s' : Store} (hstep : Step s s') (hinv : JobsInv s.jobs) :
    JobsInv s'.jobs := by
  cases hstep with
  | create_project id name path now h =>
    rw [create_project] at h
    split at h
    · cases h
    · injection h with h2
      subst h2
      exact hinv
  | delete_project name h =>
    rw [delete_project] at h
    split at h
    · injection h with h2
      subst h2
      exact hinv
    · cases h
  | complete_preparing_environment id status metadata now h =>
    rw [complete_preparing_environment] at h
    dsimp only at h
    split at h
    · cases h
    · split at h
      · injection h with h2
        subst h2
        exact hinv
      · cases h
  | update_environment_metadata id metadata now h =>
    rw [update_environment_metadata] at h
    split at h
    · injection h with h2
      subst h2
      exact hinv
    · cases h
  | update_environment_status id status now h =>
    rw [update_environment_status] at h
    split at h
    · injection h with h2
      subst h2
      exact hinv
    · cases h
  | delete_environment id h =>
    rw [delete_environment] at h
    split at h
    · injection h with h2
      subst h2
      exact hinv
    · cases h
  | stage_prepare_environment project_id provider cap env_new_id job_new_id now r
      hfresh h =>
    rw [stage_prepare_environment] at h
    dsimp only at h
    split at h
    · injection h with h2
      subst h2
      exact jobsInv_insert_job_tx _ _ _ _ _ _ hfresh hinv
    · cases h
  | stage_task_create project_id task_provider env_provider description task_new_id
      env_new_id job_new_id now r hfresh h =>
    rw [stage_task_create] at h
    dsimp only at h
    split at h
    · injection h with h2
      subst h2
      dsimp only
      split
      · exact jobsInv_insert_job_tx _ _ _ _ _ _ hfresh hinv
      · exact jobsInv_insert_job_tx _ _ _ _ _ _ hfresh hinv
    · cases h
  | stage_update_environment id job_new_id now hfresh h =>
    rw [stage_update_environment] at h
    dsimp only at h
    split at h
    · cases h
    · split at h
      · injection h with h2
        subst h2
        exact jobsInv_insert_job_tx _ _ _ _ _ _ hfresh hinv
      · cases h
  | stage_claim_environment id job_new_id now hfresh h =>
    rw [stage_claim_environment] at h
    dsimp only at h
    split at h
    · cases h
    · injection h with h2
      subst h2
      exact jobsInv_insert_job_tx _ _ _ _ _ _ hfresh hinv
  | stage_claim_next_environment provider project_id job_new_id now hfresh h =>
    rw [stage_claim_next_environment] at h
    dsimp only at h
    split at h
    · cases h
    · split at h
      · cases h
      · injection h with h2
        subst h2
        exact jobsInv_insert_job_tx _ _ _ _ _ _ hfresh hinv
  | stage_remove_environment id job_new_id now hfresh h =>
    rw [stage_remove_environment] at h
    dsimp only at h
    split at h
    · cases h
    · split at h
      · cases h
      · split at h
        · cases h
        · injection h with h2
          subst h2
          exact jobsInv_insert_job_tx _ _ _ _ _ _ hfresh hinv
  | force_delete_environment id h =>
    rw [force_delete_environment] at h
    split at h
    · cases h
    · split at h
      · injection h with h2
        subst h2
        exact hinv
      · cases h
  | stage_remove_task task_id job_new_id now hfresh h =>
    rw [stage_remove_task] at h
    dsimp only at h
    split at h
    · cases h
    · split at h
      · cases h
      · injection h with h2
        subst h2
        exact jobsInv_insert_job_tx _ _ _ _ _ _ hfresh hinv
  | force_delete_task task_id h =>
    rw [force_delete_task] at h
    dsimp only at h
    split at h
    · cases h
    · split at h
      · injection h with h2
        subst h2
        exact hinv
      · cases h
  | start_task id now h =>
    rw [start_task] at h
    split at h
    · injection h with h2
      subst h2
      exact hinv
    · cases h
  | delete_task_and_environment task_id env_id =>
    exact hinv
  | update_task_status id status now h =>
    rw [update_task_status] at h
    split at h
    · injection h with h2
      subst h2
      exact hinv
    · cases h
  | create_job_with_dedupe job_type payload dedupe_key new_id now hfresh =>
    exact jobsInv_insert_job_tx _ _ _ _ _ _ hfresh hinv
  | claim_pending_jobs limit lease_seconds now =>
    exact jobsInv_claim_pending_jobs _ _ _ _ hinv
  | mark_job_complete id now jobs' h =>
    exact jobsInv_mark_job_complete _ _ _ _ hinv h
  | mark_job_failed id error now jobs' h =>
    exact jobsInv_mark_job_failed _ _ _ _ _ hinv h
  | requeue_job id error delay_seconds now jobs' h =>
    exact jobsInv_requeue_job _ _ _ _ _ _ hinv h
  | refresh_job_lease id lease_seconds now =>
    exact jobsInv_refresh_job_lease _ _ _ _ hinv
  | reset =>
    refine ⟨List.nodup_nil, ?_, ?_⟩
    · intro j hj
      cases hj
    · intro k
      simp [initialStore]

theorem jobsInv_reachable {s : Store} (hreach : Reachable s) : JobsInv s.jobs := by
  induction hreach with
  | init =>
    refine ⟨List.nodup_nil, ?_, ?_⟩
    · intro j hj
      cases hj
    · intro k
      simp [initialStore]
  | step _ hstep ih =>
    exact jobsInv_step hstep ih

/-- C2: in every reachable store state, for every dedupe key, at most one
job row with status `pending` or `running` carries that key (the invariant
is preserved by every write transaction, the job-inserting ones because
`insert_job_tx` clears terminal rows' keys and inserts nothing when an
active duplicate exists); moreover, whenever an active job with the key
already exists, `insert_job_tx` returns that job's id and leaves the jobs
table unchanged. -/
theorem dedupe_unique_invariant (s : Store) (hreach : Reachable s) :
    DedupeUnique s.jobs ∧
    ∀ (job_type : JobType) (payload : Payload) (k : DedupeKey) (new_id : String)
      (now : Nat) (j : JobRow), j ∈ s.jobs → j.active → j.dedupe_key = some k →
      insert_job_tx job_type payload (some k) new_id now s.jobs = (j.id, s.jobs) := by
  have hinv := jobsInv_reachable hreach
  refine ⟨hinv.2.2, ?_⟩
  intro ty p k nid now j hj hact hkey
  cases hfind : s.jobs.find? (fun j => decide (j.dedupe_key = some k ∧ j.active)) with
  | none =>
    exfalso
    rw [List.find?_eq_none] at hfind
    exact hfind j hj (by simp [hkey, hact])
  | some x =>
    have hx1 : x ∈ s.jobs := List.mem_of_find?_eq_some hfind
    have hx2 := List.find?_some hfind
    simp only [decide_eq_true_eq] at hx2
    have hcount := hinv.2.2 k
    rw [List.countP_eq_length_filter] at hcount
    have hxj : x = j := by
      have hxf : x ∈ s.jobs.filter
          (fun j => decide (j.dedupe_key = some k ∧ j.active)) :=
        List.mem_filter.mpr ⟨hx1, by simp [hx2.1, hx2.2]⟩
      have hjf : j ∈ s.jobs.filter
          (fun j => decide (j.dedupe_key = some k ∧ j.active)) :=
        List.mem_filter.mpr ⟨hj, by simp [hkey, hact]⟩
      exact length_le_one_mem_eq hcount x hxf j hjf
    have heq : insert_job_tx ty p (some k) nid now s.jobs = (x.id, s.jobs) := by
      simp only [insert_job_tx]
      rw [hfind]
    rw [heq, hxj]

/-- C2 witness: starting from a fresh database and inserting one
`update_environment` job with a dedupe key, a second insert under the same
key returns the first job's id and inserts nothing. -/
theorem dedupe_unique_invariant_witness :
    insert_job_tx JobType.update_environment { env_id := some "e2" }
      (some (DedupeKey.update_env "e1")) "job2" 5
      ((create_job_with_dedupe JobType.update_environment { env_id := some "e1" }
        (some (DedupeKey.update_env "e1")) "job1" 0 initialStore).2).jobs
    = ("job1",
      ((create_job_with_dedupe JobType.update_environment { env_id := some "e1" }
        (some (DedupeKey.update_env "e1")) "job1" 0 initialStore).2).jobs) :=
  (dedupe_unique_invariant _
      (Reachable.step Reachable.init
        (Step.create_job_with_dedupe JobType.update_environment
          { env_id := some "e1" } (some (DedupeKey.update_env "e1")) "job1" 0
          (fun j hj => absurd hj (List.not_mem_nil j))))).2
    JobType.update_environment { env_id := some "e2" } (DedupeKey.update_env "e1")
    "job2" 5
    { id := "job1", job_type := JobType.update_environment,
      payload := { env_id := some "e1" }, status := JobStatus.pending,
      attempt := 0, created_at := 0, updated_at := 0,
      dedupe_key := some (DedupeKey.update_env "e1"), not_before := none,
      lease_expires_at := none, last_error := none }
    (by decide) (Or.inl rfl) rfl

theorem tryUpdateEnvStatus_jobs (oid : Option String) (status : EnvStatus)
    (now : Nat) (s : Store) : (tryUpdateEnvStatus oid status now s).jobs = s.jobs := by
  cases oid with
  | none => rfl
  | some id =>
    simp only [tryUpdateEnvStatus, update_environment_status]
    split
    · rename_i s' heq
      split at heq
      · injection heq with h2
        subst h2
        rfl
      · cases heq
    · rfl

theorem tryUpdateTaskStatus_jobs (oid : Option String) (status : TaskStatus)
    (now : Nat) (s : Store) : (tryUpdateTaskStatus oid status now s).jobs = s.jobs := by
  cases oid with
  | none => rfl
  | some id =>
    simp only [tryUpdateTaskStatus, update_task_status]
    split
    · rename_i s' heq
      split at heq
      · injection heq with h2
        subst h2
        rfl
      · cases heq
    · rfl

theorem apply_terminal_failure_side_effects_jobs (job : JobRow) (now : Nat)
    (s : Store) : (apply_terminal_failure_side_effects job now s).jobs = s.jobs := by
  cases htype : job.job_type <;>
    simp [apply_terminal_failure_side_effects, htype, tryUpdateEnvStatus_jobs,
      tryUpdateTaskStatus_jobs]

/-- C3 (amended): for a job whose execution fails on every attempt (and
whose lease never expires between attempts), the worker requeues it with
the backoff delay after each failing execution whose claimed attempt
counter is below the retry limit of 2, and marks it failed otherwise;
consequently such a job executes exactly two times in total before
`mark_job_failed` is called (the claimed attempt counter is 1 on the first
execution and 2 on the second, final one), and it is never executed a
third time. -/
theorem retry_limit_two_executions (j : JobRow) (err : String) (t1 t2 : Nat)
    (P : List ProjectRow) (E : List EnvRow) (T : List TaskRow)
    (hstatus : j.status = JobStatus.pending) (hattempt : j.attempt = 0)
    (hnb : j.not_before = none) (ht : t1 + 2 ≤ t2) :
    (worker_round_all_fail err 30 t1 ⟨P, E, T, [j]⟩).1 = 1 ∧
    (worker_round_all_fail err 30 t1 ⟨P, E, T, [j]⟩).2.jobs
      = [{ j with status := JobStatus.pending, attempt := 1,
                  not_before := some (t1 + retry_delay_seconds 1),
                  lease_expires_at := none,
                  last_error := some err, updated_at := t1 }] ∧
    (worker_round_all_fail err 30 t2
      (worker_round_all_fail err 30 t1 ⟨P, E, T, [j]⟩).2).1 = 1 ∧
    (worker_round_all_fail err 30 t2
      (worker_round_all_fail err 30 t1 ⟨P, E, T, [j]⟩).2).2.jobs
      = [{ j with status := JobStatus.failed, attempt := 2,
                  dedupe_key := none, not_before := none,
                  lease_expires_at := none, last_error := some err,
                  updated_at := t2 }] ∧
    (∀ t3 : Nat,
      (worker_round_all_fail err 30 t3
        (worker_round_all_fail err 30 t2
          (worker_round_all_fail err 30 t1 ⟨P, E, T, [j]⟩).2).2).1 = 0) := by
  have hdelay : retry_delay_seconds 1 = 2 := rfl
  have h1 : worker_round_all_fail err 30 t1 ⟨P, E, T, [j]⟩ =
      (1, ⟨P, E, T,
        [{ j with status := JobStatus.pending, attempt := 1,
                  not_before := some (t1 + 2), lease_expires_at := none,
                  last_error := some err, updated_at := t1 }]⟩) := by
    simp [worker_round_all_fail, claim_pending_jobs, eligibleAt, hstatus, hnb,
      hattempt, claimedUpdate, process_job_failure, requeue_job,
      retry_delay_seconds, List.insertionSort, List.orderedInsert, RETRY_LIMIT]
  have h2a : (worker_round_all_fail err 30 t2 ⟨P, E, T,
      [{ j with status := JobStatus.pending, attempt := 1,
                not_before := some (t1 + 2), lease_expires_at := none,
                last_error := some err, updated_at := t1 }]⟩).1 = 1 := by
    simp [worker_round_all_fail, claim_pending_jobs, eligibleAt, ht,
      List.insertionSort, List.orderedInsert]
  have h2b : (worker_round_all_fail err 30 t2 ⟨P, E, T,
      [{ j with status := JobStatus.pending, attempt := 1,
                not_before := some (t1 + 2), lease_expires_at := none,
                last_error := some err, updated_at := t1 }]⟩).2.jobs
      = [{ j with status := JobStatus.failed, attempt := 2,
                  dedupe_key := none, not_before := none,
                  lease_expires_at := none, last_error := some err,
                  updated_at := t2 }] := by
    simp [worker_round_all_fail, claim_pending_jobs, eligibleAt, ht,
      claimedUpdate, process_job_failure, mark_job_failed, RETRY_LIMIT,
      apply_terminal_failure_side_effects_jobs, List.insertionSort,
      List.orderedInsert]
  refine ⟨by rw [h1], ?_, ?_, ?_, ?_⟩
  · rw [h1, hdelay]
  · rw [h1]
    exact h2a
  · rw [h1]
    exact h2b
  · intro t3
    rw [h1]
    have hz : ∀ s : Store, s.jobs
        = [{ j with status := JobStatus.failed, attempt := 2,
                    dedupe_key := none, not_before := none,
                    lease_expires_at := none, last_error := some err,
                    updated_at := t2 }] →
        (worker_round_all_fail err 30 t3 s).1 = 0 := by
      intro s hs
      simp [worker_round_all_fail, claim_pending_jobs, eligibleAt, hs]
    exact hz _ h2b

/-- C3 witness: the two-execution bound evaluated on a concrete
`remove_environment` job claimed at times 10 and 50. -/
theorem retry_limit_two_executions_witness :
    (worker_round_all_fail "boom" 30 10
      ⟨[], [], [],
        [{ id := "j1", job_type := JobType.remove_environment,
           payload := { env_id := some "e1" }, status := JobStatus.pending,
           attempt := 0, created_at := 0, updated_at := 0,
           dedupe_key := some (DedupeKey.remove_env "e1"), not_before := none,
           lease_expires_at := none, last_error := none }]⟩).1 = 1 ∧
    (worker_round_all_fail "boom" 30 50
      (worker_round_all_fail "boom" 30 10
        ⟨[], [], [],
          [{ id := "j1", job_type := JobType.remove_environment,
             payload := { env_id := some "e1" }, status := JobStatus.pending,
             attempt := 0, created_at := 0, updated_at := 0,
             dedupe_key := some (DedupeKey.remove_env "e1"), not_before := none,
             lease_expires_at := none, last_error := none }]⟩).2).1 = 1 :=
  match retry_limit_two_executions
    { id := "j1", job_type := JobType.remove_environment,
      payload := { env_id := some "e1" }, status := JobStatus.pending,
      attempt := 0, created_at := 0, updated_at := 0,
      dedupe_key := some (DedupeKey.remove_env "e1"), not_before := none,
      lease_expires_at := none, last_error := none }
    "boom" 10 50 [] [] [] rfl rfl rfl (by norm_num) with
  | ⟨ha, _, hc, _, _⟩ => ⟨ha, hc⟩

/-- C3 counterexample to the claim as stated: an always-failing job is
executed exactly twice — `mark_job_failed` runs at claimed attempt 2, the
third round claims nothing — so the total execution count is 2, not the
three executions the claim's "up to three times total" bound describes as
attainable. -/
theorem retry_limit_three_executions_counterexample :
    (worker_round_all_fail "boom" 30 10
      ⟨[], [], [],
        [{ id := "j1", job_type := JobType.remove_environment,
           payload := { env_id := some "e1" }, status := JobStatus.pending,
           attempt := 0, created_at := 0, updated_at := 0,
           dedupe_key := some (DedupeKey.remove_env "e1"), not_before := none,
           lease_expires_at := none, last_error := none }]⟩).1 +
    (worker_round_all_fail "boom" 30 50
      (worker_round_all_fail "boom" 30 10
        ⟨[], [], [],
          [{ id := "j1", job_type := JobType.remove_environment,
             payload := { env_id := some "e1" }, status := JobStatus.pending,
             attempt := 0, created_at := 0, updated_at := 0,
             dedupe_key := some (DedupeKey.remove_env "e1"), not_before := none,
             lease_expires_at := none, last_error := none }]⟩).2).1 +
    (worker_round_all_fail "boom" 30 100
      (worker_round_all_fail "boom" 30 50
        (worker_round_all_fail "boom" 30 10
          ⟨[], [], [],
            [{ id := "j1", job_type := JobType.remove_environment,
               payload := { env_id := some "e1" }, status := JobStatus.pending,
               attempt := 0, created_at := 0, updated_at := 0,
               dedupe_key := some (DedupeKey.remove_env "e1"), not_before := none,
               lease_expires_at := none, last_error := none }]⟩).2).2).1
    = 2 ∧ ¬ ((2 : Nat) = 3) ∧
    (worker_round_all_fail "boom" 30 50
      (worker_round_all_fail "boom" 30 10
        ⟨[], [], [],
          [{ id := "j1", job_type := JobType.remove_environment,
             payload := { env_id := some "e1" }, status := JobStatus.pending,
             attempt := 0, created_at := 0, updated_at := 0,
             dedupe_key := some (DedupeKey.remove_env "e1"), not_before := none,
             lease_expires_at := none, last_error := none }]⟩).2).2.jobs
    = [{ id := "j1", job_type := JobType.remove_environment,
         payload := { env_id := some "e1" }, status := JobStatus.failed,
         attempt := 2, created_at := 0, updated_at := 50,
         dedupe_key := none, not_before := none,
         lease_expires_at := none, last_error := some "boom" }] := by
  refine ⟨?_, by norm_num, ?_⟩ <;> decide

theorem mem_of_head?_eq_some {α : Type} {l : List α} {a : α}
    (h : l.head? = some a) : a ∈ l := by
  cases l with
  | nil => cases h
  | cons x xs =>
    rw [List.head?_cons] at h
    injection h with h2
    exact h2 ▸ List.mem_cons_self _ _

theorem countP_pool_eq_one (envs : List EnvRow)
    (hnodup : (envs.map EnvRow.id).Nodup) (cand : EnvRow) (hc : cand ∈ envs)
    (hpool : cand.status = EnvStatus.pool) :
    envs.countP (fun e => decide (e.id = cand.id ∧ e.status = EnvStatus.pool)) = 1 := by
  induction envs with
  | nil => cases hc
  | cons a t ih =>
    rw [List.map_cons, List.nodup_cons] at hnodup
    rcases List.mem_cons.mp hc with rfl | hct
    · rw [List.countP_cons, if_pos (by simp [hpool])]
      have hzero : t.countP
          (fun e => decide (e.id = cand.id ∧ e.status = EnvStatus.pool)) = 0 := by
        rw [List.countP_eq_zero]
        intro e he
        simp only [decide_eq_true_eq, not_and]
        intro hid
        exact absurd (hid ▸ List.mem_map_of_mem EnvRow.id he) hnodup.1
      rw [hzero]
    · have hne : ¬ (a.id = cand.id ∧ a.status = EnvStatus.pool) := by
        rintro ⟨hid, _⟩
        exact hnodup.1 (hid ▸ List.mem_map_of_mem EnvRow.id hct)
      rw [List.countP_cons, if_neg (by simpa using hne)]
      simpa using ih hnodup.2 hct

theorem insert_job_tx_mem_of_no_active (job_type : JobType) (payload : Payload)
    (k : DedupeKey) (new_id : String) (now : Nat) (jobs : List JobRow)
    (hno : ∀ jb ∈ jobs, jb.active → jb.dedupe_key ≠ some k) :
    ({ id := new_id, job_type := job_type, payload := payload,
       status := JobStatus.pending, attempt := 0, created_at := now,
       updated_at := now, dedupe_key := some k, not_before := none,
       lease_expires_at := none, last_error := none } : JobRow)
      ∈ (insert_job_tx job_type payload (some k) new_id now jobs).2 := by
  have hfind : jobs.find? (fun j => decide (j.dedupe_key = some k ∧ j.active))
      = none := by
    rw [List.find?_eq_none]
    intro x hx
    simp only [decide_eq_true_eq, not_and]
    intro hkey hact
    exact hno x hx hact hkey
  simp only [insert_job_tx]
  rw [hfind]
  exact List.mem_append_right _ (List.mem_singleton_self _)

/-- C4: after `stage_task_create(project_id, task_provider, env_provider,
description)` commits, the created task's `environment_id` refers either to
a pre-existing environment that was in status `pool` and is now `in_use`,
or to a newly inserted environment in status `preparing` — exactly one of
the two — and the matching follow-up job (`claim_environment` for a reused
environment, `prepare_environment` for a new one) is inserted in the same
transaction. -/
theorem stage_task_create_spec
    (project_id task_provider env_provider description : String)
    (task_new_id env_new_id job_new_id : String) (now : Nat) (s : Store)
    (task : TaskRow) (s' : Store)
    (hnodupE : (s.environments.map EnvRow.id).Nodup)
    (hfreshE : ∀ e ∈ s.environments, e.id ≠ env_new_id)
    (hnojob : ∀ jb ∈ s.jobs, jb.active →
      jb.dedupe_key ≠ some (DedupeKey.prepare_env env_new_id) ∧
      jb.dedupe_key ≠ some (DedupeKey.claim_env_task task_new_id))
    (h : stage_task_create project_id task_provider env_provider description
      task_new_id env_new_id job_new_id now s = Except.ok (task, s')) :
    task.id = task_new_id ∧ task.status = TaskStatus.pending ∧ task ∈ s'.tasks ∧
    ((∃ e ∈ s.environments,
        e.provider = env_provider ∧ e.project_id = project_id ∧
        e.status = EnvStatus.pool ∧ task.environment_id = e.id ∧
        { e with status := EnvStatus.in_use, updated_at := now } ∈ s'.environments ∧
        ({ id := job_new_id, job_type := JobType.claim_environment,
           payload := { task_id := some task_new_id, env_id := some e.id },
           status := JobStatus.pending, attempt := 0, created_at := now,
           updated_at := now,
           dedupe_key := some (DedupeKey.claim_env_task task_new_id),
           not_before := none, lease_expires_at := none, last_error := none }
          : JobRow) ∈ s'.jobs) ∨
      (task.environment_id = env_new_id ∧
        (∀ e ∈ s.environments, e.id ≠ env_new_id) ∧
        ({ id := env_new_id, project_id := project_id, provider := env_provider,
           status := EnvStatus.preparing, metadata := "{}", created_at := now,
           updated_at := now } : EnvRow) ∈ s'.environments ∧
        ({ id := job_new_id, job_type := JobType.prepare_environment,
           payload := { task_id := some task_new_id, env_id := some env_new_id },
           status := JobStatus.pending, attempt := 0, created_at := now,
           updated_at := now,
           dedupe_key := some (DedupeKey.prepare_env env_new_id),
           not_before := none, lease_expires_at := none, last_error := none }
          : JobRow) ∈ s'.jobs)) ∧
    ¬ ((∃ e ∈ s.environments, task.environment_id = e.id) ∧
        task.environment_id = env_new_id) := by
  rw [stage_task_create] at h
  dsimp only at h
  split at h
  case isFalse => cases h
  case isTrue hproj =>
    cases hcand : (List.insertionSort (fun a b : EnvRow => a.created_at ≤ b.created_at)
        (s.environments.filter fun e =>
          e.provider = env_provider ∧ e.project_id = project_id ∧
            e.status = EnvStatus.pool)).head? with
    | some cand =>
      have hcmem1 : cand ∈ s.environments.filter (fun e =>
          e.provider = env_provider ∧ e.project_id = project_id ∧
            e.status = EnvStatus.pool) := by
        have := mem_of_head?_eq_some hcand
        rwa [List.mem_insertionSort] at this
      have hcmem : cand ∈ s.environments := List.mem_of_mem_filter hcmem1
      have hcprop : cand.provider = env_provider ∧ cand.project_id = project_id ∧
          cand.status = EnvStatus.pool := by
        have := List.of_mem_filter hcmem1
        simpa using this
      have hclaimed := countP_pool_eq_one s.environments hnodupE cand hcmem hcprop.2.2
      rw [hcand] at h
      dsimp only at h
      rw [hclaimed, if_pos rfl] at h
      injection h with h2
      obtain ⟨htask, hstore⟩ := Prod.mk.injEq _ _ _ _ ▸ h2
      subst htask hstore
      refine ⟨rfl, rfl, List.mem_append_right _ (List.mem_singleton_self _),
        Or.inl ⟨cand, hcmem, hcprop.1, hcprop.2.1, hcprop.2.2, rfl, ?_, ?_⟩, ?_⟩
      · have hupd : (fun e => if e.id = cand.id ∧ e.status = EnvStatus.pool then
            { e with status := EnvStatus.in_use, updated_at := now } else e) cand
            = { cand with status := EnvStatus.in_use, updated_at := now } := by
          simp [hcprop.2.2]
        exact hupd ▸ List.mem_map_of_mem _ hcmem
      · exact insert_job_tx_mem_of_no_active _ _ _ _ _ _
          (fun jb hjb hact => (hnojob jb hjb hact).2)
      · rintro ⟨⟨e, he, heid⟩, hnew⟩
        exact hfreshE e he (by rw [← heid, hnew])
    | none =>
      rw [hcand] at h
      dsimp only at h
      injection h with h2
      obtain ⟨htask, hstore⟩ := Prod.mk.injEq _ _ _ _ ▸ h2
      subst htask hstore
      refine ⟨rfl, rfl, List.mem_append_right _ (List.mem_singleton_self _),
        Or.inr ⟨rfl, hfreshE, List.mem_append_right _ (List.mem_singleton_self _), ?_⟩, ?_⟩
      · exact insert_job_tx_mem_of_no_active _ _ _ _ _ _
          (fun jb hjb hact => (hnojob jb hjb hact).1)
      · rintro ⟨⟨e, he, heid⟩, hnew⟩
        exact hfreshE e he (by rw [← heid, hnew])

/-- C4 witness: creating a task against a store with one matching pool
environment reuses it; the theorem applied at that concrete store. -/
theorem stage_task_create_spec_witness :
    ({ id := "t1", environment_id := "e1", project_id := "p1", provider := "tp",
       description := "desc", status := TaskStatus.pending, created_at := 7,
       updated_at := 7 } : TaskRow)
    ∈ (⟨[{ id := "p1", name := "n", path := "/p", created_at := 1, updated_at := 1 }],
        [{ id := "e1", project_id := "p1", provider := "ep",
           status := EnvStatus.in_use, metadata := "{}", created_at := 2,
           updated_at := 7 }],
        [{ id := "t1", environment_id := "e1", project_id := "p1",
           provider := "tp", description := "desc",
           status := TaskStatus.pending, created_at := 7, updated_at := 7 }],
        [{ id := "jb1", job_type := JobType.claim_environment,
           payload := { env_id := some "e1", task_id := some "t1" },
           status := JobStatus.pending, attempt := 0, created_at := 7,
           updated_at := 7, dedupe_key := some (DedupeKey.claim_env_task "t1"),
           not_before := none, lease_expires_at := none,
           last_error := none }]⟩ : Store).tasks :=
  (stage_task_create_spec "p1" "tp" "ep" "desc" "t1" "e2" "jb1" 7
    ⟨[{ id := "p1", name := "n", path := "/p", created_at := 1, updated_at := 1 }],
     [{ id := "e1", project_id := "p1", provider := "ep",
        status := EnvStatus.pool, metadata := "{}", created_at := 2,
        updated_at := 2 }], [], []⟩
    { id := "t1", environment_id := "e1", project_id := "p1", provider := "tp",
      description := "desc", status := TaskStatus.pending, created_at := 7,
      updated_at := 7 }
    ⟨[{ id := "p1", name := "n", path := "/p", created_at := 1, updated_at := 1 }],
     [{ id := "e1", project_id := "p1", provider := "ep",
        status := EnvStatus.in_use, metadata := "{}", created_at := 2,
        updated_at := 7 }],
     [{ id := "t1", environment_id := "e1", project_id := "p1",
        provider := "tp", description := "desc",
        status := TaskStatus.pending, created_at := 7, updated_at := 7 }],
     [{ id := "jb1", job_type := JobType.claim_environment,
        payload := { env_id := some "e1", task_id := some "t1" },
        status := JobStatus.pending, attempt := 0, created_at := 7,
        updated_at := 7, dedupe_key := some (DedupeKey.claim_env_task "t1"),
        not_before := none, lease_expires_at := none, last_error := none }]⟩
    (by decide) (by decide) (by decide) rfl).2.2.1

/-- C5: executing a `prepare_environment` job against an environment whose
status is already `pool` or `in_use` returns success with an empty provider
trace — in particular the provider's `prepare` is never invoked — and
leaves the environment rows (and the project and task tables) unchanged. -/
theorem prepare_environment_idempotent (p : ProviderOps) (job : JobRow)
    (run_task_new_id : String) (now : Nat) (s : Store) (eid : String)
    (env : EnvRow) (hpid : job.payload.env_id = some eid)
    (hfind : s.environments.find? (fun e => e.id = eid) = some env)
    (hstatus : env.status = EnvStatus.pool ∨ env.status = EnvStatus.in_use) :
    ∃ s', prepare_environment_handler p job run_task_new_id now s
        = Except.ok (s', []) ∧
      s'.environments = s.environments ∧ s'.tasks = s.tasks ∧
      s'.projects = s.projects := by
  cases htask : job.payload.task_id with
  | some tid =>
    refine ⟨(create_job_with_dedupe JobType.run_task
        { task_id := some tid, env_id := some eid }
        (some (DedupeKey.run_task_key tid)) run_task_new_id now s).2,
      ?_, rfl, rfl, rfl⟩
    simp [prepare_environment_handler, hpid, hfind, hstatus, htask]
  | none =>
    refine ⟨s, ?_, rfl, rfl, rfl⟩
    simp [prepare_environment_handler, hpid, hfind, hstatus, htask]

/-- C5 witness: a `pool` environment with a replayed prepare job carrying a
task id; the handler succeeds with no provider call. -/
theorem prepare_environment_idempotent_witness :
    ∃ s', prepare_environment_handler
        { prepare := fun _ _ => Except.error "never",
          update := fun _ => Except.error "never",
          claim := fun m => Except.ok m,
          remove := fun _ => Except.ok () }
        { id := "jb1", job_type := JobType.prepare_environment,
          payload := { env_id := some "e1", task_id := some "t1" },
          status := JobStatus.running, attempt := 1, created_at := 0,
          updated_at := 5, dedupe_key := some (DedupeKey.prepare_env "e1"),
          not_before := none, lease_expires_at := some 35, last_error := none }
        "jb2" 5
        ⟨[], [{ id := "e1", project_id := "p1", provider := "ep",
                status := EnvStatus.pool, metadata := "{}", created_at := 1,
                updated_at := 1 }], [], []⟩
      = Except.ok (s', []) ∧
      s'.environments
        = [{ id := "e1", project_id := "p1", provider := "ep",
             status := EnvStatus.pool, metadata := "{}", created_at := 1,
             updated_at := 1 }] :=
  match prepare_environment_idempotent
      { prepare := fun _ _ => Except.error "never",
        update := fun _ => Except.error "never",
        claim := fun m => Except.ok m,
        remove := fun _ => Except.ok () }
      { id := "jb1", job_type := JobType.prepare_environment,
        payload := { env_id := some "e1", task_id := some "t1" },
        status := JobStatus.running, attempt := 1, created_at := 0,
        updated_at := 5, dedupe_key := some (DedupeKey.prepare_env "e1"),
        not_before := none, lease_expires_at := some 35, last_error := none }
      "jb2" 5
      ⟨[], [{ id := "e1", project_id := "p1", provider := "ep",
              status := EnvStatus.pool, metadata := "{}", created_at := 1,
              updated_at := 1 }], [], []⟩
      "e1"
      { id := "e1", project_id := "p1", provider := "ep",
        status := EnvStatus.pool, metadata := "{}", created_at := 1,
        updated_at := 1 }
      rfl (by decide) (Or.inl rfl) with
  | ⟨s', hok, henv, _⟩ => ⟨s', hok, by rw [henv]⟩

theorem tryUpdateEnvStatus_tasks (oid : Option String) (status : EnvStatus)
    (now : Nat) (s : Store) : (tryUpdateEnvStatus oid status now s).tasks = s.tasks := by
  cases oid with
  | none => rfl
  | some id =>
    simp only [tryUpdateEnvStatus, update_environment_status]
    split
    · rename_i s' heq
      split at heq
      · injection heq with h2
        subst h2
        rfl
      · cases heq
    · rfl

theorem env_find?_map_id_pres {f : EnvRow → EnvRow}
    (hf : ∀ e, (f e).id = e.id) (l : List EnvRow) (a : String) :
    (l.map f).find? (fun x => x.id = a) = (l.find? (fun x => x.id = a)).map f := by
  induction l with
  | nil => rfl
  | cons x xs ih =>
    by_cases hx : x.id = a
    · rw [List.map_cons, List.find?_cons_of_pos _ (by simp [hf, hx]),
        List.find?_cons_of_pos _ (by simp [hx])]
      rfl
    · rw [List.map_cons, List.find?_cons_of_neg _ (by simp [hf, hx]),
        List.find?_cons_of_neg _ (by simp [hx])]
      exact ih

/-- C6: when a `remove_task` job is marked `failed` (terminal provider
failure), the terminal side effects set the paired environment's status to
`failed` but do not delete or modify the task row; a subsequent
`stage_remove_task(task_id)` then succeeds (because `failed ≠ removing`)
and enqueues a fresh `remove_task` job. -/
theorem remove_task_terminal_failure_restageable
    (s : Store) (t : TaskRow) (e : EnvRow) (j : JobRow) (err : String)
    (now1 now2 : Nat) (jid2 : String) (jobs1 : List JobRow)
    (hjty : j.job_type = JobType.remove_task)
    (hpay : j.payload = { task_id := some t.id, env_id := some t.environment_id })
    (htfind : s.tasks.find? (fun x => x.id = t.id) = some t)
    (hefind : s.environments.find? (fun x => x.id = t.environment_id) = some e)
    (hnokey : ∀ jb ∈ s.jobs,
      jb.dedupe_key = some (DedupeKey.remove_task_key t.id) → jb.id = j.id)
    (hmark : mark_job_failed j.id err now1 s.jobs = Except.ok jobs1) :
    (apply_terminal_failure_side_effects j now1 { s with jobs := jobs1 }).tasks
      = s.tasks ∧
    { e with status := EnvStatus.failed, updated_at := now1 }
      ∈ (apply_terminal_failure_side_effects j now1
          { s with jobs := jobs1 }).environments ∧
    ∃ s2, stage_remove_task t.id jid2 now2
        (apply_terminal_failure_side_effects j now1 { s with jobs := jobs1 })
      = Except.ok s2 ∧
      t ∈ s2.tasks ∧
      ({ id := jid2, job_type := JobType.remove_task,
         payload := { task_id := some t.id, env_id := some t.environment_id },
         status := JobStatus.pending, attempt := 0, created_at := now2,
         updated_at := now2,
         dedupe_key := some (DedupeKey.remove_task_key t.id),
         not_before := none, lease_expires_at := none,
         last_error := none } : JobRow) ∈ s2.jobs := by
  have hemem : e ∈ s.environments := List.mem_of_find?_eq_some hefind
  have heid : e.id = t.environment_id := by
    have := List.find?_some hefind
    simpa using this
  have hany : (s.environments.any (fun x => x.id = t.environment_id)) = true := by
    simp only [List.any_eq_true, decide_eq_true_eq]
    exact ⟨e, hemem, heid⟩
  have hs1env : (apply_terminal_failure_side_effects j now1
      { s with jobs := jobs1 }).environments
      = s.environments.map (fun x => if x.id = t.environment_id then
          { x with status := EnvStatus.failed, updated_at := now1 } else x) := by
    simp only [apply_terminal_failure_side_effects, hjty, hpay,
      tryUpdateEnvStatus, update_environment_status]
    rw [if_pos hany]
  have hs1tasks : (apply_terminal_failure_side_effects j now1
      { s with jobs := jobs1 }).tasks = s.tasks := by
    simp only [apply_terminal_failure_side_effects, hjty, hpay]
    rw [tryUpdateEnvStatus_tasks]
  have hs1jobs : (apply_terminal_failure_side_effects j now1
      { s with jobs := jobs1 }).jobs = jobs1 :=
    apply_terminal_failure_side_effects_jobs j now1 _
  refine ⟨hs1tasks, ?_, ?_⟩
  · rw [hs1env]
    have hupd : (fun x => if x.id = t.environment_id then
        { x with status := EnvStatus.failed, updated_at := now1 } else x) e
        = { e with status := EnvStatus.failed, updated_at := now1 } := by
      simp [heid]
    exact hupd ▸ List.mem_map_of_mem _ hemem
  · have hfind1 : (apply_terminal_failure_side_effects j now1
        { s with jobs := jobs1 }).tasks.find? (fun x => x.id = t.id) = some t := by
      rw [hs1tasks]
      exact htfind
    have hfind2 : (apply_terminal_failure_side_effects j now1
        { s with jobs := jobs1 }).environments.find?
          (fun x => x.id = t.environment_id)
        = some { e with status := EnvStatus.failed, updated_at := now1 } := by
      rw [hs1env, env_find?_map_id_pres (fun x => by
        by_cases hx : x.id = t.environment_id <;> simp [hx]), hefind]
      simp [heid]
    have hno1 : ∀ jb ∈ jobs1, jb.active →
        jb.dedupe_key ≠ some (DedupeKey.remove_task_key t.id) := by
      rw [mark_job_failed] at hmark
      split at hmark
      · injection hmark with h2
        subst h2
        intro jb hjb hact hkey
        obtain ⟨x, hx, rfl⟩ := List.mem_map.mp hjb
        by_cases hc : x.id = j.id
        · rw [if_pos hc] at hact
          rcases hact with hx1 | hx1 <;> cases hx1
        · rw [if_neg hc] at hact hkey
          exact hc (hnokey x hx hkey)
      · cases hmark
    have hok : stage_remove_task t.id jid2 now2
        (apply_terminal_failure_side_effects j now1 { s with jobs := jobs1 })
        = Except.ok
          { apply_terminal_failure_side_effects j now1 { s with jobs := jobs1 } with
            environments := (apply_terminal_failure_side_effects j now1
              { s with jobs := jobs1 }).environments.map fun x =>
                if x.id = t.environment_id then
                  { x with status := EnvStatus.removing, updated_at := now2 }
                else x,
            jobs := (insert_job_tx JobType.remove_task
              { task_id := some t.id, env_id := some t.environment_id }
              (some (DedupeKey.remove_task_key t.id)) jid2 now2 jobs1).2 } := by
      rw [stage_remove_task, hfind1]
      dsimp only
      rw [hfind2]
      dsimp only
      rw [if_neg (by simp), hs1jobs]
    refine ⟨_, hok, ?_, ?_⟩
    · show t ∈ (apply_terminal_failure_side_effects j now1
        { s with jobs := jobs1 }).tasks
      rw [hs1tasks]
      exact List.mem_of_find?_eq_some htfind
    · exact insert_job_tx_mem_of_no_active _ _ _ _ _ _
        (fun jb hjb hact => hno1 jb hjb hact)

/-- C6 witness: a concrete store in which the provider `remove` failed
terminally; the environment flips to `failed`, the task survives, and a
second removal stages a fresh job. -/
theorem remove_task_terminal_failure_restageable_witness :
    (apply_terminal_failure_side_effects
      { id := "jb1", job_type := JobType.remove_task,
        payload := { env_id := some "e1", task_id := some "t1" },
        status := JobStatus.running, attempt := 2, created_at := 4,
        updated_at := 5, dedupe_key := some (DedupeKey.remove_task_key "t1"),
        not_before := none, lease_expires_at := some 35, last_error := none } 6
      { projects := [],
        environments :=
          [{ id := "e1", project_id := "p1", provider := "ep",
             status := EnvStatus.removing, metadata := "{}", created_at := 2,
             updated_at := 4 }],
        tasks :=
          [{ id := "t1", environment_id := "e1", project_id := "p1",
             provider := "tp", description := "d", status := TaskStatus.complete,
             created_at := 3, updated_at := 3 }],
        jobs :=
          [{ id := "jb1", job_type := JobType.remove_task,
             payload := { env_id := some "e1", task_id := some "t1" },
             status := JobStatus.failed, attempt := 2, created_at := 4,
             updated_at := 6, dedupe_key := none, not_before := none,
             lease_expires_at := none, last_error := some "rm failed" }] }).tasks
    = [{ id := "t1", environment_id := "e1", project_id := "p1",
         provider := "tp", description := "d", status := TaskStatus.complete,
         created_at := 3, updated_at := 3 }] ∧
    ∃ s2, stage_remove_task "t1" "jb2" 9
        (apply_terminal_failure_side_effects
          { id := "jb1", job_type := JobType.remove_task,
            payload := { env_id := some "e1", task_id := some "t1" },
            status := JobStatus.running, attempt := 2, created_at := 4,
            updated_at := 5,
            dedupe_key := some (DedupeKey.remove_task_key "t1"),
            not_before := none, lease_expires_at := some 35,
            last_error := none } 6
          { projects := [],
            environments :=
          [{ id := "e1", project_id := "p1", provider := "ep",
              status := EnvStatus.removing, metadata := "{}", created_at := 2,
              updated_at := 4 }],
            tasks :=
          [{ id := "t1", environment_id := "e1", project_id := "p1",
              provider := "tp", description := "d",
              status := TaskStatus.complete, created_at := 3, updated_at := 3 }],
            jobs :=
          [{ id := "jb1", job_type := JobType.remove_task,
              payload := { env_id := some "e1", task_id := some "t1" },
              status := JobStatus.failed, attempt := 2, created_at := 4,
              updated_at := 6, dedupe_key := none, not_before := none,
              lease_expires_at := none, last_error := some "rm failed" }] })
      = Except.ok s2 ∧
      ({ id := "t1", environment_id := "e1", project_id := "p1",
         provider := "tp", description := "d", status := TaskStatus.complete,
         created_at := 3, updated_at := 3 } : TaskRow) ∈ s2.tasks ∧
      ({ id := "jb2", job_type := JobType.remove_task,
         payload := { env_id := some "e1", task_id := some "t1" },
         status := JobStatus.pending, attempt := 0, created_at := 9,
         updated_at := 9, dedupe_key := some (DedupeKey.remove_task_key "t1"),
         not_before := none, lease_expires_at := none,
         last_error := none } : JobRow) ∈ s2.jobs :=
  match remove_task_terminal_failure_restageable
      { projects := [],
        environments :=
          [{ id := "e1", project_id := "p1", provider := "ep",
             status := EnvStatus.removing, metadata := "{}", created_at := 2,
             updated_at := 4 }],
        tasks :=
          [{ id := "t1", environment_id := "e1", project_id := "p1",
             provider := "tp", description := "d", status := TaskStatus.complete,
             created_at := 3, updated_at := 3 }],
        jobs :=
          [{ id := "jb1", job_type := JobType.remove_task,
             payload := { env_id := some "e1", task_id := some "t1" },
             status := JobStatus.running, attempt := 2, created_at := 4,
             updated_at := 5, dedupe_key := some (DedupeKey.remove_task_key "t1"),
             not_before := none, lease_expires_at := some 35,
             last_error := none }] }
      { id := "t1", environment_id := "e1", project_id := "p1",
        provider := "tp", description := "d", status := TaskStatus.complete,
        created_at := 3, updated_at := 3 }
      { id := "e1", project_id := "p1", provider := "ep",
        status := EnvStatus.removing, metadata := "{}", created_at := 2,
        updated_at := 4 }
      { id := "jb1", job_type := JobType.remove_task,
        payload := { env_id := some "e1", task_id := some "t1" },
        status := JobStatus.running, attempt := 2, created_at := 4,
        updated_at := 5, dedupe_key := some (DedupeKey.remove_task_key "t1"),
        not_before := none, lease_expires_at := some 35, last_error := none }
      "rm failed" 6 9 "jb2"
      [{ id := "jb1", job_type := JobType.remove_task,
         payload := { env_id := some "e1", task_id := some "t1" },
         status := JobStatus.failed, attempt := 2, created_at := 4,
         updated_at := 6, dedupe_key := none, not_before := none,
         lease_expires_at := none, last_error := some "rm failed" }]
      rfl rfl rfl rfl (by decide) rfl with
  | ⟨htasks, _, hrest⟩ => ⟨htasks, hrest⟩

/-- C8: `stage_remove_environment(id)` fails with the task-attachment
conflict when any task row references the environment, and fails when the
environment's status is already `removing` (errors model the rolled-back
transaction: no row changed, no job inserted); otherwise it sets the
environment's status to `removing` and inserts a `remove_environment` job
in the same transaction (given, per the dedupe invariant, that no active
job already carries that dedupe key). -/
theorem stage_remove_environment_spec (eid job_new_id : String) (now : Nat)
    (s : Store) :
    (∀ t0, s.tasks.find? (fun t => t.environment_id = eid) = some t0 →
      stage_remove_environment eid job_new_id now s
        = Except.error (DbError.attachedToTask eid t0.id)) ∧
    (s.tasks.find? (fun t => t.environment_id = eid) = none →
      ∀ env, s.environments.find? (fun e => e.id = eid) = some env →
      env.status = EnvStatus.removing →
      stage_remove_environment eid job_new_id now s
        = Except.error (DbError.alreadyRemoving eid)) ∧
    (s.tasks.find? (fun t => t.environment_id = eid) = none →
      ∀ env, s.environments.find? (fun e => e.id = eid) = some env →
      ¬ env.status = EnvStatus.removing →
      (∀ jb ∈ s.jobs, jb.active →
        jb.dedupe_key ≠ some (DedupeKey.remove_env eid)) →
      ∃ s', stage_remove_environment eid job_new_id now s = Except.ok s' ∧
        { env with status := EnvStatus.removing, updated_at := now }
          ∈ s'.environments ∧
        ({ id := job_new_id, job_type := JobType.remove_environment,
           payload := { env_id := some eid }, status := JobStatus.pending,
           attempt := 0, created_at := now, updated_at := now,
           dedupe_key := some (DedupeKey.remove_env eid), not_before := none,
           lease_expires_at := none, last_error := none } : JobRow)
          ∈ s'.jobs ∧
        s'.tasks = s.tasks ∧ s'.projects = s.projects) := by
  refine ⟨?_, ?_, ?_⟩
  · intro t0 hfindT
    rw [stage_remove_environment, hfindT]
  · intro hnone env hefind hrem
    rw [stage_remove_environment, hnone]
    dsimp only
    rw [hefind]
    dsimp only
    rw [if_pos hrem]
  · intro hnone env hefind hrem hnojob
    have heid : env.id = eid := by
      have := List.find?_some hefind
      simpa using this
    have hemem : env ∈ s.environments := List.mem_of_find?_eq_some hefind
    refine ⟨{ s with
        environments := s.environments.map fun e =>
          if e.id = eid
          then { e with status := EnvStatus.removing, updated_at := now }
          else e,
        jobs := (insert_job_tx JobType.remove_environment { env_id := some eid }
          (some (DedupeKey.remove_env eid)) job_new_id now s.jobs).2 },
      ?_, ?_, ?_, rfl, rfl⟩
    · rw [stage_remove_environment, hnone]
      dsimp only
      rw [hefind]
      dsimp only
      rw [if_neg hrem]
    · have hupd : (fun e => if e.id = eid then
          { e with status := EnvStatus.removing, updated_at := now } else e) env
          = { env with status := EnvStatus.removing, updated_at := now } := by
        simp [heid]
      exact hupd ▸ List.mem_map_of_mem _ hemem
    · exact insert_job_tx_mem_of_no_active _ _ _ _ _ _ hnojob

/-- C8 witness: removing an unattached `pool` environment succeeds and
enqueues the removal job. -/
theorem stage_remove_environment_spec_witness :
    ∃ s', stage_remove_environment "e1" "jb1" 8
        ⟨[], [{ id := "e1", project_id := "p1", provider := "ep",
                status := EnvStatus.pool, metadata := "{}", created_at := 1,
                updated_at := 1 }], [], []⟩ = Except.ok s' ∧
      ({ id := "e1", project_id := "p1", provider := "ep",
         status := EnvStatus.removing, metadata := "{}", created_at := 1,
         updated_at := 8 } : EnvRow) ∈ s'.environments ∧
      ({ id := "jb1", job_type := JobType.remove_environment,
         payload := { env_id := some "e1" }, status := JobStatus.pending,
         attempt := 0, created_at := 8, updated_at := 8,
         dedupe_key := some (DedupeKey.remove_env "e1"), not_before := none,
         lease_expires_at := none, last_error := none } : JobRow) ∈ s'.jobs :=
  match (stage_remove_environment_spec "e1" "jb1" 8
      ⟨[], [{ id := "e1", project_id := "p1", provider := "ep",
              status := EnvStatus.pool, metadata := "{}", created_at := 1,
              updated_at := 1 }], [], []⟩).2.2 rfl
      { id := "e1", project_id := "p1", provider := "ep",
        status := EnvStatus.pool, metadata := "{}", created_at := 1,
        updated_at := 1 }
      rfl (by decide) (by decide) with
  | ⟨s', hok, hmem, hjob, _, _⟩ => ⟨s', hok, hmem, hjob⟩

/-- C10: the `run_task` handler returns success without starting any
process or modifying any row when the task's status is already `complete`
or `failed`; it returns an error when the status is `started`; from
`pending` it errors unless the environment is `in_use`, and only in that
case proceeds to execute the task (setting it `started`). -/
theorem run_task_guard_spec (job : JobRow) (now : Nat) (s : Store)
    (task_id env_id : String) (task : TaskRow) (env : EnvRow)
    (hptid : job.payload.task_id = some task_id)
    (hpeid : job.payload.env_id = some env_id)
    (htfind : s.tasks.find? (fun x => x.id = task_id) = some task)
    (hefind : s.environments.find? (fun x => x.id = env_id) = some env) :
    ((task.status = TaskStatus.complete ∨ task.status = TaskStatus.failed) →
      run_task_guard job now s = Except.ok (RunTaskOutcome.absorbed, s)) ∧
    (task.status = TaskStatus.started →
      run_task_guard job now s = Except.error
        (DbError.invalidState ("task " ++ task_id ++ " is already started"))) ∧
    (task.status = TaskStatus.pending → ¬ env.status = EnvStatus.in_use →
      run_task_guard job now s = Except.error
        (DbError.invalidState ("environment " ++ env_id ++ " is not in use"))) ∧
    (task.status = TaskStatus.pending → env.status = EnvStatus.in_use →
      ∃ s', run_task_guard job now s = Except.ok (RunTaskOutcome.proceeded, s') ∧
        { task with status := TaskStatus.started, updated_at := now } ∈ s'.tasks ∧
        s'.environments = s.environments ∧ s'.jobs = s.jobs ∧
        s'.projects = s.projects) := by
  have htmem : task ∈ s.tasks := List.mem_of_find?_eq_some htfind
  have htid : task.id = task_id := by
    have := List.find?_some htfind
    simpa using this
  refine ⟨?_, ?_, ?_, ?_⟩
  · intro hterm
    rw [run_task_guard, hptid]
    dsimp only
    rw [hpeid]
    dsimp only
    rw [htfind]
    dsimp only
    rw [if_pos hterm]
  · intro hstat
    rw [run_task_guard, hptid]
    dsimp only
    rw [hpeid]
    dsimp only
    rw [htfind]
    dsimp only
    rw [if_neg (by simp [hstat]), if_pos hstat]
  · intro hstat henv
    rw [run_task_guard, hptid]
    dsimp only
    rw [hpeid]
    dsimp only
    rw [htfind]
    dsimp only
    rw [if_neg (by simp [hstat]), if_neg (by simp [hstat])]
    rw [hefind]
    dsimp only
    rw [if_pos henv]
  · intro hstat henv
    have hany : (s.tasks.any (fun x => x.id = task_id)) = true := by
      simp only [List.any_eq_true, decide_eq_true_eq]
      exact ⟨task, htmem, htid⟩
    refine ⟨{ s with tasks := s.tasks.map fun t =>
        if t.id = task_id
        then { t with status := TaskStatus.started, updated_at := now }
        else t }, ?_, ?_, rfl, rfl, rfl⟩
    · rw [run_task_guard, hptid]
      dsimp only
      rw [hpeid]
      dsimp only
      rw [htfind]
      dsimp only
      rw [if_neg (by simp [hstat]), if_neg (by simp [hstat])]
      rw [hefind]
      dsimp only
      rw [if_neg (by simp [henv])]
      rw [start_task, if_pos hany]
    · have hupd : (fun t => if t.id = task_id then
          { t with status := TaskStatus.started, updated_at := now } else t) task
          = { task with status := TaskStatus.started, updated_at := now } := by
        simp [htid]
      exact hupd ▸ List.mem_map_of_mem _ htmem

/-- C10 witness: a pending task in an `in_use` environment proceeds and is
set `started`; the theorem applied at a concrete store. -/
theorem run_task_guard_spec_witness :
    ∃ s', run_task_guard
        { id := "jb1", job_type := JobType.run_task,
          payload := { env_id := some "e1", task_id := some "t1" },
          status := JobStatus.running, attempt := 1, created_at := 0,
          updated_at := 5, dedupe_key := some (DedupeKey.run_task_key "t1"),
          not_before := none, lease_expires_at := some 35, last_error := none }
        5
        ⟨[], [{ id := "e1", project_id := "p1", provider := "ep",
                status := EnvStatus.in_use, metadata := "{}", created_at := 1,
                updated_at := 2 }],
         [{ id := "t1", environment_id := "e1", project_id := "p1",
            provider := "tp", description := "d", status := TaskStatus.pending,
            created_at := 3, updated_at := 3 }], []⟩
      = Except.ok (RunTaskOutcome.proceeded, s') ∧
      ({ id := "t1", environment_id := "e1", project_id := "p1",
         provider := "tp", description := "d", status := TaskStatus.started,
         created_at := 3, updated_at := 5 } : TaskRow) ∈ s'.tasks :=
  match (run_task_guard_spec
      { id := "jb1", job_type := JobType.run_task,
        payload := { env_id := some "e1", task_id := some "t1" },
        status := JobStatus.running, attempt := 1, created_at := 0,
        updated_at := 5, dedupe_key := some (DedupeKey.run_task_key "t1"),
        not_before := none, lease_expires_at := some 35, last_error := none }
      5
      ⟨[], [{ id := "e1", project_id := "p1", provider := "ep",
              status := EnvStatus.in_use, metadata := "{}", created_at := 1,
              updated_at := 2 }],
       [{ id := "t1", environment_id := "e1", project_id := "p1",
          provider := "tp", description := "d", status := TaskStatus.pending,
          created_at := 3, updated_at := 3 }], []⟩
      "t1" "e1"
      { id := "t1", environment_id := "e1", project_id := "p1",
        provider := "tp", description := "d", status := TaskStatus.pending,
        created_at := 3, updated_at := 3 }
      { id := "e1", project_id := "p1", provider := "ep",
        status := EnvStatus.in_use, metadata := "{}", created_at := 1,
        updated_at := 2 }
      rfl rfl rfl rfl).2.2.2 rfl rfl with
  | ⟨s', hok, hmem, _⟩ => ⟨s', hok, hmem⟩

end Work
